import Mathlib

/-
  Verification development for the sentra-cli core subsystems:
  the permission manager (approval gate), the context manager
  (resource ledger) and the agent orchestrator (dispatcher).

  Each TypeScript function of the source is embedded as a Lean
  definition over explicit state values; asynchronous effects
  (timers, the poll loop awaiting a response, persisted files)
  are modelled as explicit components of the state or as single
  step functions.  JavaScript numbers are modelled as Int / Nat
  where the source only ever holds integers, and as rationals
  for the percentage arithmetic; the concrete values involved
  are far below any float-precision boundary.
-/

namespace Sentra

/-- Risk levels of the permission system (types/index.ts). -/
inductive RiskLevel
  | low
  | medium
  | high
  | critical
deriving DecidableEq, Repr

/-- The eight personas of the agent system (types/index.ts). -/
inductive PersonaType
  | requirementsAnalyst
  | uiUxDesigner
  | frontendDeveloper
  | backendArchitect
  | qaEngineer
  | securityAnalyst
  | technicalWriter
  | devopsEngineer
deriving DecidableEq, Repr

/-- Status values of a permission request (types/index.ts). -/
inductive PermissionStatus
  | pending
  | approved
  | denied
  | expired
deriving DecidableEq, Repr

/-- Agent status values (types/index.ts). -/
inductive AgentStatus
  | idle
  | working
  | blocked
  | error
deriving DecidableEq, Repr

/-- Task priority values (types/index.ts). -/
inductive Priority
  | low
  | medium
  | high
  | critical
deriving DecidableEq, Repr

/- ---------------------------------------------------------------
   String matching utilities.

   The permission rules of permission-manager.ts are JavaScript
   regular expressions built only from case-insensitive literals,
   the gaps `.*`, `\s+` and `\s*`, and top-level alternation
   (groups such as (database|table|schema) are expanded into
   separate alternatives below).  We embed exactly this fragment:
   a pattern alternative is a token list, and `searchMatch` is the
   unanchored search that RegExp.prototype.test performs.
   --------------------------------------------------------------- -/

/-- ASCII whitespace, the part of the JavaScript \s class that can
occur in the commands considered here. -/
def isSpaceChar (c : Char) : Bool :=
  c = ' ' || c = '\t' || c = '\n' || c = '\r' || c = '\x0b' || c = '\x0c'

/-- One token of a pattern alternative: a single literal character
(case-insensitive), `.*`, `\s+` or `\s*`. -/
inductive Tok
  | lit (c : Char)
  | gap
  | sp
  | sp0
deriving DecidableEq, Repr

/-- Matching of a token list against the empty subject: literals
and `\s+` fail, `.*` and `\s*` are skipped. -/
def matchNilAux : List Tok → Bool
  | [] => true
  | Tok.lit _ :: _ => false
  | Tok.gap :: ts => matchNilAux ts
  | Tok.sp :: _ => false
  | Tok.sp0 :: ts => matchNilAux ts

/-- Matching of a token list against the nonempty subject d :: cs2
where `next ts2` matches ts2 against cs2: a literal consumes d
(lowered, for the /i flag); `.*` either matches nothing here or
consumes d and stays; `\s+` consumes one space and then either
continues or keeps consuming spaces; `\s*` either matches nothing
here or consumes one space and stays. -/
def matchConsAux (next : List Tok → Bool) (d : Char) : List Tok → Bool
  | [] => true
  | Tok.lit c :: ts => c = d.toLower && next ts
  | Tok.gap :: ts => matchConsAux next d ts || next (Tok.gap :: ts)
  | Tok.sp :: ts => isSpaceChar d && (next ts || next (Tok.sp :: ts))
  | Tok.sp0 :: ts => matchConsAux next d ts || (isSpaceChar d && next (Tok.sp0 :: ts))

/-- Does the token list match a prefix of the character list (with
arbitrary trailing characters allowed)? -/
def matchHere : List Char → List Tok → Bool
  | [], ts => matchNilAux ts
  | d :: cs2, ts => matchConsAux (fun ts2 => matchHere cs2 ts2) d ts

/-- Unanchored search, the semantics of RegExp.prototype.test. -/
def searchMatch (ts : List Tok) : List Char → Bool
  | [] => matchHere [] ts
  | c :: cs2 => matchHere (c :: cs2) ts || searchMatch ts cs2

/-- Case-sensitive substring search on character lists, the
semantics of String.prototype.includes. -/
def containsSub (pat : List Char) : List Char → Bool
  | [] => pat.isEmpty
  | c :: cs2 => pat.isPrefixOf (c :: cs2) || containsSub pat cs2

/-- String.prototype.includes. -/
def strContains (s pat : String) : Bool :=
  containsSub pat.toList s.toList

/-- String.prototype.toLowerCase, character by character. -/
def strLower (s : String) : String :=
  String.mk (s.toList.map Char.toLower)

/- ---------------------------------------------------------------
   Exact fraction arithmetic.

   The percentage arithmetic of the source runs on JavaScript
   doubles whose operands here are always ratios of integers of
   small magnitude, so the comparisons are exact.  We model these
   numbers as unreduced fractions with an integer numerator and a
   natural denominator (every denominator constructed below is
   positive); comparison and equality are by cross multiplication,
   which agree with the rational value whenever the denominators
   are positive.
   --------------------------------------------------------------- -/

/-- An exact unreduced fraction. -/
structure Frac where
  num : Int
  den : Nat
deriving DecidableEq, Repr

/-- Embed an integer. -/
def fInt (n : Int) : Frac := ⟨n, 1⟩

/-- Addition of fractions. -/
def fAdd (a b : Frac) : Frac := ⟨a.num * b.den + b.num * a.den, a.den * b.den⟩

/-- Multiplication of fractions. -/
def fMul (a b : Frac) : Frac := ⟨a.num * b.num, a.den * b.den⟩

/-- Division by a natural number. -/
def fDivNat (a : Frac) (n : Nat) : Frac := ⟨a.num, a.den * n⟩

/-- Strict order by cross multiplication. -/
def fLt (a b : Frac) : Prop := a.num * (b.den : Int) < b.num * (a.den : Int)

/-- Order by cross multiplication. -/
def fLe (a b : Frac) : Prop := a.num * (b.den : Int) ≤ b.num * (a.den : Int)

/-- Value equality by cross multiplication. -/
def fEq (a b : Frac) : Prop := a.num * (b.den : Int) = b.num * (a.den : Int)

instance (a b : Frac) : Decidable (fLt a b) := Int.decLt _ _

instance (a b : Frac) : Decidable (fLe a b) := Int.decLe _ _

instance (a b : Frac) : Decidable (fEq a b) := Int.instDecidableEq _ _

/-- The smaller of two fractions (Math.min). -/
def fMin (a b : Frac) : Frac := if fLe a b then a else b

/-- Math.round on a nonnegative fraction: floor(x + 1/2); the
integer division of Lean truncates toward zero, which is floor for
the nonnegative values this is applied to. -/
def fRound (q : Frac) : Int := (2 * q.num + q.den) / (2 * (q.den : Int))

/-- Literal pattern chunk; stored lowered since every rule carries
the /i flag. -/
def lits (s : String) : List Tok :=
  s.toList.map (fun c => Tok.lit c.toLower)

/- ---------------------------------------------------------------
   Permission rules (PermissionManager.initializePermissionRules).
   Each entry records the pattern (as its expanded alternatives),
   the risk level, whether it requires approval, its timeout in
   milliseconds and its reason string, in source order.
   --------------------------------------------------------------- -/

/-- A permission rule of permission-manager.ts. -/
structure PermissionRule where
  branches : List (List Tok)
  riskLevel : RiskLevel
  requiresApproval : Bool
  timeout : Nat
  reason : String
deriving DecidableEq, Repr

/-- The ten rules installed by initializePermissionRules, in order.
The comment above each entry quotes the source pattern. -/
def permissionRules : List PermissionRule := [
  -- /rm\s+-rf|rmdir|delete.*\.git|format.*disk/i
  { branches := [lits "rm" ++ [Tok.sp] ++ lits "-rf", lits "rmdir",
      lits "delete" ++ [Tok.gap] ++ lits ".git", lits "format" ++ [Tok.gap] ++ lits "disk"],
    riskLevel := RiskLevel.critical, requiresApproval := true, timeout := 600000,
    reason := "Destructive file system operation" },
  -- /chmod\s+777|chown.*root|sudo.*rm/i
  { branches := [lits "chmod" ++ [Tok.sp] ++ lits "777", lits "chown" ++ [Tok.gap] ++ lits "root",
      lits "sudo" ++ [Tok.gap] ++ lits "rm"],
    riskLevel := RiskLevel.high, requiresApproval := true, timeout := 300000,
    reason := "Elevated permissions required" },
  -- /npm\s+install.*-g|yarn.*global|pip.*install.*--user/i
  { branches := [lits "npm" ++ [Tok.sp] ++ lits "install" ++ [Tok.gap] ++ lits "-g",
      lits "yarn" ++ [Tok.gap] ++ lits "global",
      lits "pip" ++ [Tok.gap] ++ lits "install" ++ [Tok.gap] ++ lits "--user"],
    riskLevel := RiskLevel.medium, requiresApproval := true, timeout := 180000,
    reason := "Global package installation" },
  -- /drop\s+(database|table|schema)|truncate.*table|delete.*from.*where.*1=1/i
  { branches := [lits "drop" ++ [Tok.sp] ++ lits "database", lits "drop" ++ [Tok.sp] ++ lits "table",
      lits "drop" ++ [Tok.sp] ++ lits "schema", lits "truncate" ++ [Tok.gap] ++ lits "table",
      lits "delete" ++ [Tok.gap] ++ lits "from" ++ [Tok.gap] ++ lits "where" ++ [Tok.gap] ++ lits "1=1"],
    riskLevel := RiskLevel.critical, requiresApproval := true, timeout := 600000,
    reason := "Destructive database operation" },
  -- /alter\s+(table|database)|create.*index|grant.*all/i
  { branches := [lits "alter" ++ [Tok.sp] ++ lits "table", lits "alter" ++ [Tok.sp] ++ lits "database",
      lits "create" ++ [Tok.gap] ++ lits "index", lits "grant" ++ [Tok.gap] ++ lits "all"],
    riskLevel := RiskLevel.high, requiresApproval := true, timeout := 300000,
    reason := "Database schema modification" },
  -- /curl.*\|\s*sh|wget.*\|\s*bash|ssh.*root@/i
  { branches := [lits "curl" ++ [Tok.gap] ++ lits "|" ++ [Tok.sp0] ++ lits "sh",
      lits "wget" ++ [Tok.gap] ++ lits "|" ++ [Tok.sp0] ++ lits "bash",
      lits "ssh" ++ [Tok.gap] ++ lits "root@"],
    riskLevel := RiskLevel.critical, requiresApproval := true, timeout := 600000,
    reason := "Remote code execution risk" },
  -- /git.*push.*--force|git.*reset.*--hard.*HEAD/i
  { branches := [lits "git" ++ [Tok.gap] ++ lits "push" ++ [Tok.gap] ++ lits "--force",
      lits "git" ++ [Tok.gap] ++ lits "reset" ++ [Tok.gap] ++ lits "--hard" ++ [Tok.gap] ++ lits "head"],
    riskLevel := RiskLevel.high, requiresApproval := true, timeout := 300000,
    reason := "Potentially destructive Git operation" },
  -- /docker.*run.*--privileged|docker.*rm.*-f/i
  { branches := [lits "docker" ++ [Tok.gap] ++ lits "run" ++ [Tok.gap] ++ lits "--privileged",
      lits "docker" ++ [Tok.gap] ++ lits "rm" ++ [Tok.gap] ++ lits "-f"],
    riskLevel := RiskLevel.high, requiresApproval := true, timeout := 300000,
    reason := "Privileged container operation" },
  -- /export.*PATH=|unset.*PATH|rm.*\.env/i
  { branches := [lits "export" ++ [Tok.gap] ++ lits "path=", lits "unset" ++ [Tok.gap] ++ lits "path",
      lits "rm" ++ [Tok.gap] ++ lits ".env"],
    riskLevel := RiskLevel.medium, requiresApproval := true, timeout := 180000,
    reason := "Environment variable modification" },
  -- /deploy.*production|push.*main|merge.*master/i
  { branches := [lits "deploy" ++ [Tok.gap] ++ lits "production",
      lits "push" ++ [Tok.gap] ++ lits "main", lits "merge" ++ [Tok.gap] ++ lits "master"],
    riskLevel := RiskLevel.high, requiresApproval := true, timeout := 300000,
    reason := "Production deployment" }]

/-- rule.pattern.test(command). -/
def ruleTest (rule : PermissionRule) (command : String) : Bool :=
  rule.branches.any (fun b => searchMatch b command.toList)

/-- PermissionManager.getRiskScore. -/
def getRiskScore : RiskLevel → Nat
  | RiskLevel.low => 10
  | RiskLevel.medium => 30
  | RiskLevel.high => 60
  | RiskLevel.critical => 100

/-- PermissionManager.getTimeoutForRisk. -/
def getTimeoutForRisk : RiskLevel → Nat
  | RiskLevel.low => 60000
  | RiskLevel.medium => 180000
  | RiskLevel.high => 300000
  | RiskLevel.critical => 600000

/-- PermissionManager.generateRiskRecommendation (the factors
argument is unused in the source as well). -/
def generateRiskRecommendation (level : RiskLevel) (factors : List String) : String :=
  match level, factors with
  | RiskLevel.critical, _ =>
    "CRITICAL: This operation could cause significant damage. Carefully review before approval."
  | RiskLevel.high, _ =>
    "HIGH RISK: This operation requires careful consideration and may affect system stability."
  | RiskLevel.medium, _ =>
    "MEDIUM RISK: Standard approval required. Review the operation details."
  | RiskLevel.low, _ =>
    "LOW RISK: Safe operation that can typically be auto-approved."

/-- Result of PermissionManager.assessRisk. -/
structure RiskAssessment where
  level : RiskLevel
  factors : List String
  score : Nat
  recommendation : String
deriving DecidableEq, Repr

/-- Accumulator of the assessRisk computation: the mutable locals
score, factors and level of the source. -/
structure RiskAcc where
  score : Nat
  factors : List String
  level : RiskLevel
deriving DecidableEq, Repr

/-- One iteration of the rule loop in assessRisk. -/
def riskRuleStep (command : String) (acc : RiskAcc) (rule : PermissionRule) : RiskAcc :=
  if ruleTest rule command then
    { score := acc.score + getRiskScore rule.riskLevel,
      factors := acc.factors ++ [rule.reason],
      level := if getRiskScore rule.riskLevel > getRiskScore acc.level then rule.riskLevel
               else acc.level }
  else acc

/-- The accumulator after the rule loop of assessRisk. -/
def baseAcc (command : String) : RiskAcc :=
  permissionRules.foldl (riskRuleStep command) ⟨0, [], RiskLevel.low⟩

/-- The production-context adjustment of assessRisk. -/
def productionAdjust (context : String) (acc : RiskAcc) : RiskAcc :=
  if strContains context "production" || strContains context "prod" then
    { score := acc.score + 30, factors := acc.factors ++ ["Production environment"],
      level := if acc.level = RiskLevel.low then RiskLevel.medium else acc.level }
  else acc

/-- The database-context adjustment of assessRisk. -/
def databaseAdjust (context : String) (acc : RiskAcc) : RiskAcc :=
  if strContains context "database" || strContains context "db" then
    { acc with score := acc.score + 20, factors := acc.factors ++ ["Database operation"] }
  else acc

/-- The elevated-privileges adjustment of assessRisk. -/
def sudoAdjust (command : String) (acc : RiskAcc) : RiskAcc :=
  if strContains command "sudo" || strContains command "root" then
    { acc with score := acc.score + 25, factors := acc.factors ++ ["Elevated privileges"] }
  else acc

/-- Accumulator state just before the final threshold step of
assessRisk (the three contextual adjustments run in source order). -/
def finalAcc (command context : String) : RiskAcc :=
  sudoAdjust command (databaseAdjust context (productionAdjust context (baseAcc command)))

/-- PermissionManager.assessRisk. -/
def assessRisk (command context : String) : RiskAssessment :=
  let acc := finalAcc command context
  let level :=
    if acc.score ≥ 80 then RiskLevel.critical
    else if acc.score ≥ 50 then RiskLevel.high
    else if acc.score ≥ 20 then RiskLevel.medium
    else acc.level
  { level := level, factors := acc.factors, score := acc.score,
    recommendation := generateRiskRecommendation level acc.factors }

/-- PermissionManager.requiresApproval. -/
def requiresApproval (command : String) (riskLevel : RiskLevel) : Bool :=
  if riskLevel = RiskLevel.critical || riskLevel = RiskLevel.high then true
  else
    match permissionRules.find? (fun rule => ruleTest rule command) with
    | some rule => rule.requiresApproval
    | none => riskLevel = RiskLevel.medium

/- ---------------------------------------------------------------
   Permission manager state machine.

   pendingRequests and permissionHistory are JavaScript Maps with
   string keys; they are modelled as insertion-ordered association
   lists with the Map.set / Map.delete semantics.  The files the
   manager writes under .sentra/permissions and the armed request
   timers are modelled as further components of the state so that
   frame conditions can be stated.  Wall-clock timestamps are not
   modelled (no claim depends on them).
   --------------------------------------------------------------- -/

/-- Lookup in an association list (JavaScript Map.get). -/
def lookupA {α : Type} : List (String × α) → String → Option α
  | [], _ => none
  | kv :: rest, k => if kv.1 = k then some kv.2 else lookupA rest k

/-- JavaScript Map.set: replace the entry in place when the key is
present, append otherwise. -/
def insertA {α : Type} : List (String × α) → String → α → List (String × α)
  | [], k, v => [(k, v)]
  | kv :: rest, k, v => if kv.1 = k then (k, v) :: rest else kv :: insertA rest k v

/-- JavaScript Map.delete. -/
def eraseA {α : Type} : List (String × α) → String → List (String × α)
  | [], _ => []
  | kv :: rest, k => if kv.1 = k then eraseA rest k else kv :: eraseA rest k

/-- A permission response (types/index.ts); respondedAt omitted. -/
structure PermissionResponse where
  approved : Bool
  respondedBy : String
  reason : Option String
deriving DecidableEq, Repr

/-- A permission request (types/index.ts); createdAt omitted. -/
structure PermissionRequest where
  id : String
  agent : PersonaType
  command : String
  context : String
  riskLevel : RiskLevel
  timeout : Nat
  status : PermissionStatus
  response : Option PermissionResponse
deriving DecidableEq, Repr

/-- The state of a PermissionManager: the two in-memory maps, the
persisted request and response files, and the armed timers. -/
structure PMState where
  pendingRequests : List (String × PermissionRequest)
  permissionHistory : List (String × PermissionResponse)
  persistedRequests : List (String × PermissionRequest)
  persistedResponses : List (String × PermissionResponse)
  timers : List (String × Nat)
deriving DecidableEq, Repr

/-- The freshly constructed manager: everything empty. -/
def initialPMState : PMState :=
  { pendingRequests := [], permissionHistory := [],
    persistedRequests := [], persistedResponses := [], timers := [] }

/-- The SentraError codes thrown by respondToRequest and
cancelRequest. -/
inductive PMError
  | requestNotFound (id : String)
  | requestAlreadyResolved (id : String)
deriving DecidableEq, Repr

/-- PermissionManager.respondToRequest.  On success it returns the
new state together with the updated request record (the source
mutates the record, stores the response in history, removes the
entry from the pending map and persists the response). -/
def respondToRequest (s : PMState) (requestId : String) (approved : Bool)
    (reason : Option String) (respondedBy : String) :
    Except PMError (PMState × PermissionRequest) :=
  match lookupA s.pendingRequests requestId with
  | none => Except.error (PMError.requestNotFound requestId)
  | some request =>
    if request.status ≠ PermissionStatus.pending then
      Except.error (PMError.requestAlreadyResolved requestId)
    else
      let response : PermissionResponse :=
        { approved := approved, respondedBy := respondedBy, reason := reason }
      let request2 :=
        { request with
            response := some response,
            status := if approved then PermissionStatus.approved else PermissionStatus.denied }
      Except.ok
        ({ s with
            permissionHistory := insertA s.permissionHistory requestId response,
            pendingRequests := eraseA s.pendingRequests requestId,
            persistedResponses := insertA s.persistedResponses requestId response },
         request2)

/-- PermissionManager.cancelRequest (reason defaults to
"Cancelled by user" at call sites that pass none). -/
def cancelRequest (s : PMState) (requestId : String) (reason : String) :
    Except PMError (PMState × PermissionRequest) :=
  match lookupA s.pendingRequests requestId with
  | none => Except.error (PMError.requestNotFound requestId)
  | some request =>
    let response : PermissionResponse :=
      { approved := false, respondedBy := "system", reason := some reason }
    let request2 :=
      { request with status := PermissionStatus.expired, response := some response }
    Except.ok
      ({ s with
          pendingRequests := eraseA s.pendingRequests requestId,
          permissionHistory := insertA s.permissionHistory requestId response,
          persistedResponses := insertA s.persistedResponses requestId response },
       request2)

/-- The timer callback armed by setupRequestTimeout: when the
request is still pending it cancels it with reason
"Request timeout"; the expired request record is returned for
inspection. -/
def fireRequestTimeout (s : PMState) (requestId : String) :
    PMState × Option PermissionRequest :=
  if (lookupA s.pendingRequests requestId).isSome then
    match cancelRequest s requestId "Request timeout" with
    | Except.ok (s2, req2) => (s2, some req2)
    | Except.error _ => (s, none)
  else (s, none)

/-- What one iteration of the waitForResponse poll loop does:
resolve with the approved response, reject (PermissionDeniedError)
with the recorded reason, reject with "Request timeout" for an
expired pending record, or poll again in a second. -/
inductive WaitOutcome
  | resolvedApproved (response : PermissionResponse)
  | rejectedDenied (reason : Option String)
  | pollAgain
deriving DecidableEq, Repr

/-- One iteration of the checkResponse closure inside
waitForResponse. -/
def checkResponse (s : PMState) (requestId : String) : WaitOutcome :=
  match lookupA s.permissionHistory requestId with
  | some response =>
    if response.approved then WaitOutcome.resolvedApproved response
    else WaitOutcome.rejectedDenied response.reason
  | none =>
    match lookupA s.pendingRequests requestId with
    | some request =>
      if request.status = PermissionStatus.expired then
        WaitOutcome.rejectedDenied (some "Request timeout")
      else WaitOutcome.pollAgain
    | none => WaitOutcome.pollAgain

/-- Result of requestPermission up to the point where it either
returns the auto-approval or starts waiting for a response. -/
inductive RequestOutcome
  | autoApproved (response : PermissionResponse)
  | awaitingResponse (requestId : String)
deriving DecidableEq, Repr

/-- PermissionManager.requestPermission, up to the await on
waitForResponse.  The random request id is a parameter (the source
draws it from crypto.randomBytes).  In the approval-required path
the request is stored in the pending map, persisted, notifications
are sent (external effect, not part of the state) and the timeout
timer is armed. -/
def requestPermission (s : PMState) (newId : String) (agent : PersonaType)
    (command context : String) : PMState × RequestOutcome :=
  let riskAssessment := assessRisk command context
  if !(requiresApproval command riskAssessment.level) then
    (s, RequestOutcome.autoApproved
      { approved := true, respondedBy := "system",
        reason := some "Auto-approved: low risk operation" })
  else
    let request : PermissionRequest :=
      { id := newId, agent := agent, command := command, context := context,
        riskLevel := riskAssessment.level,
        timeout := getTimeoutForRisk riskAssessment.level,
        status := PermissionStatus.pending, response := none }
    ({ s with
        pendingRequests := insertA s.pendingRequests newId request,
        persistedRequests := insertA s.persistedRequests newId request,
        timers := s.timers ++ [(newId, request.timeout)] },
     RequestOutcome.awaitingResponse newId)

/- ---------------------------------------------------------------
   Context manager (resource ledger), context-manager.ts.

   Sizes are the integers Math.round produces in the source; the
   running total is an Int (it is only ever decremented by sizes
   of stored items).  Percentages are exact rationals: every value
   the source manipulates is a ratio of integers of magnitude well
   below 2^40, where double arithmetic is exact up to rounding
   that cannot cross the comparison boundaries used here.
   --------------------------------------------------------------- -/

/-- The kinds of context items (types/index.ts). -/
inductive ContextType
  | file
  | interface
  | dependency
  | config
deriving DecidableEq, Repr

/-- A context item (types/index.ts). -/
structure ContextItem where
  type : ContextType
  path : String
  content : Option String
  size : Nat
deriving DecidableEq, Repr

/-- The default sizes used by calculateItemSize when the item has
no content. -/
def typeDefaultSize : ContextType → Nat
  | ContextType.file => 100
  | ContextType.interface => 50
  | ContextType.dependency => 25
  | ContextType.config => 30

/-- ContextManager.calculateItemSize.  The source computes
Math.round(path.length / 4 + content.length / 4) when content is
present and Math.round(path.length / 4 + typeSize) otherwise; for
naturals p, c and integer t these equal (p + c + 2) / 4 and
t + (p + 2) / 4 in truncated division. -/
def calculateItemSize (item : ContextItem) : Nat :=
  match item.content with
  | some content => (item.path.length + content.length + 2) / 4
  | none => typeDefaultSize item.type + (item.path.length + 2) / 4

/-- ContextManager.getContextCapacity: Math.round of 8000 times
the persona adjustment factor. -/
def getContextCapacity : PersonaType → Nat
  | PersonaType.requirementsAnalyst => 9600
  | PersonaType.uiUxDesigner => 7200
  | PersonaType.frontendDeveloper => 8800
  | PersonaType.backendArchitect => 10400
  | PersonaType.qaEngineer => 8000
  | PersonaType.securityAnalyst => 6400
  | PersonaType.technicalWriter => 5600
  | PersonaType.devopsEngineer => 8000

/-- ContextManager.getPersonaPriority. -/
def getPersonaPriority : PersonaType → Nat
  | PersonaType.requirementsAnalyst => 9
  | PersonaType.backendArchitect => 8
  | PersonaType.frontendDeveloper => 7
  | PersonaType.qaEngineer => 6
  | PersonaType.securityAnalyst => 6
  | PersonaType.uiUxDesigner => 5
  | PersonaType.devopsEngineer => 4
  | PersonaType.technicalWriter => 3

/-- A context window of one persona (lastUpdated omitted). -/
structure ContextWindow where
  persona : PersonaType
  items : List ContextItem
  currentUsage : Int
  priority : Nat
deriving DecidableEq, Repr

/-- The context limits record with the source defaults. -/
structure ContextLimits where
  maxPercentage : Frac
  warningThreshold : Frac
  maxItems : Nat
deriving DecidableEq, Repr

/-- The personas in the initialization order of
initializeContextWindows (also the key order of agentUsage). -/
def allPersonas : List PersonaType :=
  [PersonaType.requirementsAnalyst, PersonaType.uiUxDesigner,
   PersonaType.frontendDeveloper, PersonaType.backendArchitect,
   PersonaType.qaEngineer, PersonaType.securityAnalyst,
   PersonaType.technicalWriter, PersonaType.devopsEngineer]

/-- The state of a ContextManager: all eight windows, the cached
per-persona percentage usages and the aggregate. -/
structure CMState where
  windows : PersonaType → ContextWindow
  agentUsage : PersonaType → Frac
  totalUsage : Frac
  limits : ContextLimits

/-- The freshly constructed manager. -/
def initialCMState : CMState :=
  { windows := fun p =>
      { persona := p, items := [], currentUsage := 0, priority := getPersonaPriority p },
    agentUsage := fun _ => fInt 0,
    totalUsage := fInt 0,
    limits := { maxPercentage := fInt 40, warningThreshold := fInt 35, maxItems := 1000 } }

/-- Replace one window of the state. -/
def setWindow (s : CMState) (p : PersonaType) (w : ContextWindow) : CMState :=
  { s with windows := fun q => if q = p then w else s.windows q }

/-- Update the cached percentage of one persona. -/
def setAgentUsage (s : CMState) (p : PersonaType) (v : Frac) : CMState :=
  { s with agentUsage := fun q => if q = p then v else s.agentUsage q }

/-- ContextManager.updateTotalUsage: the arithmetic mean over the
eight personas (reduce with +, starting from 0, divided by the
number of keys). -/
def updateTotalUsage (s : CMState) : CMState :=
  { s with totalUsage :=
      fDivNat ((allPersonas.map s.agentUsage).foldl fAdd (fInt 0)) allPersonas.length }

/-- The percentage (usage / capacity) * 100 the source computes. -/
def usagePct (u : Int) (cap : Nat) : Frac :=
  fMul ⟨u, cap⟩ (fInt 100)

/-- Remove the first item with the given path, returning it and
the remainder (Array.prototype.findIndex + splice). -/
def removeFirstByPath : List ContextItem → String → Option (ContextItem × List ContextItem)
  | [], _ => none
  | item :: rest, p =>
    if item.path = p then some (item, rest)
    else
      match removeFirstByPath rest p with
      | some (removed, rest2) => some (removed, item :: rest2)
      | none => none

/-- ContextManager.removeContext.  Returns the new state and the
boolean result; the no-op branch covers the missing-window and
missing-item cases of the source (all eight windows always exist). -/
def removeContext (s : CMState) (persona : PersonaType) (itemPath : String) : CMState × Bool :=
  let window := s.windows persona
  match removeFirstByPath window.items itemPath with
  | none => (s, false)
  | some (removed, items2) =>
    let window2 :=
      { window with items := items2, currentUsage := window.currentUsage - (removed.size : Int) }
    let usagePercentage := usagePct window2.currentUsage (getContextCapacity persona)
    (updateTotalUsage (setAgentUsage (setWindow s persona window2) persona usagePercentage), true)

/-- The fixed type-priority ordering of performAutomaticCleanup:
config < dependency < file < interface. -/
def typePriority : ContextType → Nat
  | ContextType.config => 1
  | ContextType.dependency => 2
  | ContextType.file => 3
  | ContextType.interface => 4

/-- The comparison relation of the cleanup sort. -/
def priLE (a b : ContextItem) : Prop :=
  typePriority a.type ≤ typePriority b.type

instance : DecidableRel priLE := fun a b =>
  Nat.decLe (typePriority a.type) (typePriority b.type)

instance : IsTotal ContextItem priLE :=
  ⟨fun a b => Nat.le_total (typePriority a.type) (typePriority b.type)⟩

instance : IsTrans ContextItem priLE :=
  ⟨fun _ _ _ hab hbc => Nat.le_trans hab hbc⟩

/-- The stable ascending sort by type priority performed by
performAutomaticCleanup ([...items].sort with the comparator
typePriority[a.type] - typePriority[b.type]; Array.prototype.sort
is stable, which insertionSort reproduces). -/
def sortByTypePriority (items : List ContextItem) : List ContextItem :=
  items.insertionSort priLE

/-- The selection loop of performAutomaticCleanup: walk the sorted
items, stop once freedSpace is at least requiredSpace, otherwise
record the path and add the size. -/
def selectToRemoveAux : List ContextItem → Nat → Nat → List String
  | [], _, _ => []
  | item :: rest, freed, required =>
    if freed ≥ required then []
    else item.path :: selectToRemoveAux rest (freed + item.size) required

/-- ContextManager.performAutomaticCleanup: sort, select, then
remove each selected path through removeContext. -/
def performAutomaticCleanup (s : CMState) (persona : PersonaType) (requiredSpace : Nat) : CMState :=
  let window := s.windows persona
  let sortedItems := sortByTypePriority window.items
  let itemsToRemove := selectToRemoveAux sortedItems 0 requiredSpace
  itemsToRemove.foldl (fun st p => (removeContext st persona p).1) s

/-- The ContextOverflowError payload thrown by addContext. -/
inductive AddContextError
  | contextOverflow (usage limitPct : Frac)
deriving DecidableEq, Repr

/-- The tail of addContext shared by both branches: push the item,
add its size to the running total and record usagePercentage (the
value computed before any cleanup) as the cached percentage. -/
def finishAdd (s : CMState) (persona : PersonaType) (item : ContextItem)
    (recordedPercentage : Frac) : CMState :=
  let window := s.windows persona
  let window2 :=
    { window with
        items := window.items ++ [item],
        currentUsage := window.currentUsage + (item.size : Int) }
  updateTotalUsage (setAgentUsage (setWindow s persona window2) persona recordedPercentage)

/-- ContextManager.addContext.  The error value carries the state
at the moment of the throw: the evictions of the cleanup attempt
persist even when the ContextOverflowError is raised. -/
def addContext (s : CMState) (persona : PersonaType) (item0 : ContextItem) :
    Except (AddContextError × CMState) CMState :=
  let window := s.windows persona
  let itemSize := calculateItemSize item0
  let item := { item0 with size := itemSize }
  let newUsage : Int := window.currentUsage + (itemSize : Int)
  let usagePercentage := usagePct newUsage (getContextCapacity persona)
  if fLt s.limits.maxPercentage usagePercentage then
    let s2 := performAutomaticCleanup s persona itemSize
    let window2 := s2.windows persona
    let updatedUsage : Int := window2.currentUsage + (itemSize : Int)
    let updatedPercentage := usagePct updatedUsage (getContextCapacity persona)
    if fLt s2.limits.maxPercentage updatedPercentage then
      Except.error (AddContextError.contextOverflow updatedPercentage s2.limits.maxPercentage, s2)
    else Except.ok (finishAdd s2 persona item usagePercentage)
  else Except.ok (finishAdd s persona item usagePercentage)

/-- ContextManager.cleanup (manual cleanup of one persona). -/
def cleanup (s : CMState) (persona : PersonaType) : CMState :=
  let window := s.windows persona
  let window2 := { window with items := [], currentUsage := 0 }
  updateTotalUsage (setAgentUsage (setWindow s persona window2) persona (fInt 0))

/-- ContextManager.emergencyCleanup: cleanup of every nonempty
window, then reset of the aggregate and of every cached
percentage. -/
def emergencyCleanup (s : CMState) : CMState :=
  let s2 := allPersonas.foldl
    (fun st p => if ((st.windows p).items).length > 0 then cleanup st p else st) s
  { s2 with totalUsage := fInt 0, agentUsage := fun _ => fInt 0 }

/-- The ledger operations a client can issue. -/
inductive CMOp
  | add (persona : PersonaType) (item : ContextItem)
  | remove (persona : PersonaType) (path : String)
deriving DecidableEq, Repr

/-- Apply one operation; a failed reservation leaves the state the
throw left behind. -/
def runOp (s : CMState) : CMOp → CMState
  | CMOp.add p i =>
    match addContext s p i with
    | Except.ok s2 => s2
    | Except.error (_, s2) => s2
  | CMOp.remove p path => (removeContext s p path).1

/-- Run a sequence of ledger operations. -/
def runOps (s : CMState) (ops : List CMOp) : CMState :=
  ops.foldl runOp s

/- ---------------------------------------------------------------
   Agent orchestrator (dispatcher), agent-orchestrator.ts.

   The agents Map is an insertion-ordered list (one entry per
   persona, created in the declaration order of initializeAgents).
   Selection and task assignment are pure over this state.  The
   capability sets are data of the Agent records: the claims about
   the dispatcher quantify over them.
   --------------------------------------------------------------- -/

/-- An agent record (types/index.ts). -/
structure Agent where
  id : String
  name : String
  persona : PersonaType
  specializations : List String
  contextLimit : Frac
  status : AgentStatus
  contextUsage : Frac
deriving DecidableEq, Repr

/-- A task record (types/index.ts); timestamps omitted. -/
structure Task where
  id : String
  title : String
  description : String
  priority : Priority
  assignedAgent : Option PersonaType
  dependencies : List String
  contextRequirement : Frac
  acceptanceCriteria : List String
deriving DecidableEq, Repr

/-- The keyword table of analyzeTaskRequirements, in the insertion
order of the source object literal (the iteration order of
Object.entries on string keys). -/
def specializationKeywords : List (String × List String) := [
  ("stakeholder-analysis", ["stakeholder", "user", "business", "requirement", "analysis"]),
  ("user-story-creation", ["story", "epic", "feature", "user", "need"]),
  ("user-experience-design", ["ux", "user experience", "wireframe", "prototype", "design"]),
  ("interface-design", ["ui", "interface", "component", "layout", "design"]),
  ("react-development", ["react", "component", "jsx", "hook", "state"]),
  ("typescript", ["typescript", "type", "interface", "generic"]),
  ("api-design", ["api", "endpoint", "rest", "graphql", "service"]),
  ("database-architecture", ["database", "sql", "schema", "migration", "query"]),
  ("test-automation", ["test", "testing", "automation", "spec", "coverage"]),
  ("security-auditing", ["security", "auth", "encrypt", "vulnerability", "audit"]),
  ("documentation", ["docs", "documentation", "readme", "guide", "manual"]),
  ("ci-cd-pipelines", ["ci", "cd", "pipeline", "deploy", "build"])]

/-- The lowercased text analyzeTaskRequirements builds from the
task. -/
def taskText (task : Task) : String :=
  strLower (task.title ++ " " ++ task.description ++ " "
    ++ String.intercalate " " task.acceptanceCriteria)

/-- Result of analyzeTaskRequirements. -/
structure TaskAnalysis where
  keywords : List String
  complexity : ℤ
deriving DecidableEq, Repr

/-- AgentOrchestrator.analyzeTaskRequirements: a specialization
key is collected when any of its patterns occurs in the task text;
complexity is Math.round(1 + 0.5 * matches + min(length / 1000, 3)). -/
def analyzeTaskRequirements (task : Task) : TaskAnalysis :=
  let text := taskText task
  let keywords :=
    (specializationKeywords.filter
      (fun sk => sk.2.any (fun pat => strContains text pat))).map (fun sk => sk.1)
  let complexity : Frac :=
    fAdd (fAdd (fInt 1) (fMul ⟨1, 2⟩ (fInt keywords.length)))
      (fMin ⟨text.length, 1000⟩ (fInt 3))
  { keywords := keywords, complexity := fRound complexity }

/-- The score selectOptimalAgent computes for one agent: 10 per
matched specialization, +5 when context usage is below 80 percent
of the limit, +8 when idle, -5 when working. -/
def scoreAgent (keywords : List String) (agent : Agent) : Int :=
  let specScore : Int :=
    10 * ((agent.specializations.filter (fun sp => keywords.contains sp)).length : Int)
  let ctxScore : Int :=
    if fLt agent.contextUsage (fMul agent.contextLimit ⟨4, 5⟩) then 5 else 0
  let statusScore : Int :=
    if agent.status = AgentStatus.idle then 8
    else if agent.status = AgentStatus.working then -5
    else 0
  specScore + ctxScore + statusScore

/-- Stable insertion into a descending score list: the new element
goes after every strictly higher score and before the first equal
or lower one (Array.prototype.sort with b.score - a.score, which
is stable). -/
def insertScoreDesc (x : PersonaType × Int) : List (PersonaType × Int) → List (PersonaType × Int)
  | [] => [x]
  | y :: ys => if x.2 < y.2 then y :: insertScoreDesc x ys else x :: y :: ys

/-- The stable descending sort of the score list. -/
def sortScoresDesc (l : List (PersonaType × Int)) : List (PersonaType × Int) :=
  l.foldr insertScoreDesc []

/-- AgentOrchestrator.selectOptimalAgent: score every agent in map
order, sort descending (stable) and take the first.  none models
the crash of the source on an empty roster (agentScores[0] is
undefined there); the roster always has eight agents. -/
def selectOptimalAgent (agents : List Agent) (task : Task) : Option PersonaType :=
  let keywords := (analyzeTaskRequirements task).keywords
  let agentScores := agents.map (fun a => (a.persona, scoreAgent keywords a))
  match sortScoresDesc agentScores with
  | [] => none
  | best :: _ => some best.1

/-- Orchestrator state: the agents map (insertion order) and the
task queue. -/
structure OrchState where
  agents : List Agent
  taskQueue : List Task
deriving DecidableEq, Repr

/-- The SentraError codes assignTask can raise. -/
inductive AssignTaskError
  | invalidTask
  | noAgentSelected
  | agentNotFound (p : PersonaType)
  | contextLimitExceeded (requirement limit : Frac)
deriving DecidableEq, Repr

/-- AgentOrchestrator.assignTask: validate id and title (the empty
string is falsy), auto-select an agent when none is assigned,
check the context requirement against the agent limit, then
enqueue.  noAgentSelected models the crash of the source on an
empty roster. -/
def assignTask (st : OrchState) (task : Task) : Except AssignTaskError OrchState :=
  if task.id = "" || task.title = "" then Except.error AssignTaskError.invalidTask
  else
    let task1 :=
      match task.assignedAgent with
      | some _ => task
      | none =>
        match selectOptimalAgent st.agents task with
        | some p => { task with assignedAgent := some p }
        | none => task
    match task1.assignedAgent with
    | none => Except.error AssignTaskError.noAgentSelected
    | some p =>
      match st.agents.find? (fun a => a.persona = p) with
      | none => Except.error (AssignTaskError.agentNotFound p)
      | some agent =>
        if fLt agent.contextLimit task1.contextRequirement then
          Except.error
            (AssignTaskError.contextLimitExceeded task1.contextRequirement agent.contextLimit)
        else Except.ok { st with taskQueue := st.taskQueue ++ [task1] }

/-- The canonical deterministic selection: the first pair of the
list attaining the maximal score. -/
def firstMaxPair : List (PersonaType × Int) → Option (PersonaType × Int)
  | [] => none
  | x :: xs =>
    match firstMaxPair xs with
    | none => some x
    | some b => if x.2 < b.2 then some b else some x

/- ---------------------------------------------------------------
   Derived notions used by the statements about the code.
   --------------------------------------------------------------- -/

/-- The level derived purely from the score thresholds of
assessRisk. -/
def scoreLevel (score : Nat) : RiskLevel :=
  if score ≥ 80 then RiskLevel.critical
  else if score ≥ 50 then RiskLevel.high
  else if score ≥ 20 then RiskLevel.medium
  else RiskLevel.low

/-- The level of the matching rule with the highest category. -/
def maxRuleLevel (levels : List RiskLevel) : RiskLevel :=
  levels.foldl (fun a b => if getRiskScore a < getRiskScore b then b else a) RiskLevel.low

/-- The assessment level as the specification describes it: the
score-derived level, except that when some rule matches, the level
of the matching rule with the highest category wins whenever the
two disagree (hence that rule level whenever any rule matches).
This follows the specification wording, for comparison against
assessRisk. -/
def claimedAssessLevel (command context : String) : RiskLevel :=
  let matched := permissionRules.filter (fun r => ruleTest r command)
  if matched.isEmpty then scoreLevel (assessRisk command context).score
  else maxRuleLevel (matched.map PermissionRule.riskLevel)

/-- The cached percentage that truthfully reflects a window. -/
def truePct (s : CMState) (p : PersonaType) : Frac :=
  usagePct ((s.windows p).currentUsage) (getContextCapacity p)

/-- The budget invariant: the consumption of the window of p is at
most capacity times the ceiling percentage. -/
def usageWithinLimit (s : CMState) (p : PersonaType) : Prop :=
  fLe (truePct s p) s.limits.maxPercentage

/-- The aggregate equals the mean of the cached percentages. -/
def meanOk (s : CMState) : Prop :=
  s.totalUsage = fDivNat ((allPersonas.map s.agentUsage).foldl fAdd (fInt 0)) allPersonas.length

/-- Sum of the sizes of a list of items. -/
def sizeSum (items : List ContextItem) : Nat :=
  (items.map ContextItem.size).sum

/-- Boolean membership of a string in a list. -/
def memB (a : String) : List String → Bool
  | [] => false
  | b :: l => a = b || memB a l

/-- Except.isOk without relying on library naming. -/
def isOkE {ε α : Type} : Except ε α → Bool
  | Except.ok _ => true
  | Except.error _ => false

instance {ε α : Type} [DecidableEq ε] [DecidableEq α] : DecidableEq (Except ε α) := fun a b =>
  match a, b with
  | Except.ok x, Except.ok y =>
    if h : x = y then Decidable.isTrue (by rw [h])
    else Decidable.isFalse (by intro hc; injection hc; contradiction)
  | Except.error x, Except.error y =>
    if h : x = y then Decidable.isTrue (by rw [h])
    else Decidable.isFalse (by intro hc; injection hc; contradiction)
  | Except.ok _, Except.error _ => Decidable.isFalse (by intro hc; injection hc)
  | Except.error _, Except.ok _ => Decidable.isFalse (by intro hc; injection hc)

/- ---------------------------------------------------------------
   Concrete instances used by witnesses and counterexamples.
   --------------------------------------------------------------- -/

/-- A pending high-risk request used to exercise respondToRequest. -/
def c1req0 : PermissionRequest :=
  { id := "r1", agent := PersonaType.devopsEngineer, command := "rm -rf node_modules",
    context := "cleaning up dependencies", riskLevel := RiskLevel.high, timeout := 300000,
    status := PermissionStatus.pending, response := none }

/-- A manager holding exactly that pending request. -/
def c1s0 : PMState :=
  { initialPMState with pendingRequests := [("r1", c1req0)] }

/-- The state after the first (approving) respondToRequest call. -/
def c1s1 : PMState :=
  match respondToRequest c1s0 "r1" true none "user" with
  | Except.ok (s, _) => s
  | Except.error _ => c1s0

/-- The resolved request record of that first call. -/
def c1req1 : PermissionRequest :=
  match respondToRequest c1s0 "r1" true none "user" with
  | Except.ok (_, r) => r
  | Except.error _ => c1req0

/-- A pending medium-risk request used to exercise the timeout. -/
def c5req0 : PermissionRequest :=
  { id := "t1", agent := PersonaType.requirementsAnalyst, command := "complex analysis",
    context := "timeout test", riskLevel := RiskLevel.medium, timeout := 100,
    status := PermissionStatus.pending, response := none }

/-- A manager holding exactly that pending request. -/
def c5s0 : PMState :=
  { initialPMState with pendingRequests := [("t1", c5req0)] }

/-- A file item of a fixed 101-token size (no content, so the size
is the type default 100 plus the rounded path-length share). -/
def c7item (k : Nat) : ContextItem :=
  { type := ContextType.file, path := "f" ++ toString k, content := none, size := 0 }

/-- Twenty-two successful reservations for the technical writer,
filling the window to 2222 of the 2240-token ceiling. -/
def c7ops : List CMOp :=
  (List.range 22).map (fun k => CMOp.add PersonaType.technicalWriter (c7item k))

/-- The ledger after those reservations. -/
def c7s : CMState := runOps initialCMState c7ops

/-- The reservation that triggers eviction (total would be 2323). -/
def c7newItem : ContextItem := c7item 22

/-- The ledger after the eviction-backed reservation. -/
def c7s2 : CMState :=
  match addContext c7s PersonaType.technicalWriter c7newItem with
  | Except.ok s2 => s2
  | Except.error _ => c7s

/-- A window of the technical writer holding one config item that
fills 2200 of the 2240-token ceiling. -/
def c6cfgItem : ContextItem :=
  { type := ContextType.config, path := "cfg", content := none, size := 2200 }

/-- A ledger state with that single occupied window. -/
def c6s : CMState :=
  setWindow initialCMState PersonaType.technicalWriter
    { persona := PersonaType.technicalWriter, items := [c6cfgItem], currentUsage := 2200,
      priority := getPersonaPriority PersonaType.technicalWriter }

/-- The small file item whose reservation exceeds the remaining
headroom (2200 + 101 > 2240). -/
def c6newItem : ContextItem :=
  { type := ContextType.file, path := "nf", content := none, size := 0 }

/-- The state after the eviction-backed reservation. -/
def c6s2 : CMState :=
  match addContext c6s PersonaType.technicalWriter c6newItem with
  | Except.ok s2 => s2
  | Except.error _ => c6s

/-- A roster on which every agent scores nonpositive: the working
agents score -5 and the errored ones score 0 (context usage sits
at the limit so the availability bonus is not granted and the task
text matches no specialization). -/
def c4agents : List Agent :=
  [{ id := "agent-requirements-analyst-1", name := "Requirements Analyst Master",
     persona := PersonaType.requirementsAnalyst, specializations := ["stakeholder-analysis"],
     contextLimit := fInt 30, status := AgentStatus.error, contextUsage := fInt 30 },
   { id := "agent-frontend-developer-1", name := "Frontend Developer Master",
     persona := PersonaType.frontendDeveloper, specializations := ["react-development"],
     contextLimit := fInt 35, status := AgentStatus.working, contextUsage := fInt 35 },
   { id := "agent-backend-architect-1", name := "Backend Architect Master",
     persona := PersonaType.backendArchitect, specializations := ["api-design"],
     contextLimit := fInt 35, status := AgentStatus.working, contextUsage := fInt 35 }]

/-- The orchestrator over that roster. -/
def c4state : OrchState :=
  { agents := c4agents, taskQueue := [] }

/-- A valid task whose text matches no specialization keyword. -/
def c4task : Task :=
  { id := "task-1", title := "zzz", description := "qqq", priority := Priority.medium,
    assignedAgent := none, dependencies := [], contextRequirement := fInt 10,
    acceptanceCriteria := [] }

/- ---------------------------------------------------------------
   Association list lemmas.
   --------------------------------------------------------------- -/

theorem lookupA_insertA_self {α : Type} (l : List (String × α)) (k : String) (v : α) :
    lookupA (insertA l k v) k = some v := by
  induction l with
  | nil => simp [insertA, lookupA]
  | cons kv rest ih =>
    by_cases h : kv.1 = k
    · simp [insertA, h, lookupA]
    · simp [insertA, h, lookupA, ih]

theorem lookupA_eraseA_self {α : Type} (l : List (String × α)) (k : String) :
    lookupA (eraseA l k) k = none := by
  induction l with
  | nil => simp [eraseA, lookupA]
  | cons kv rest ih =>
    by_cases h : kv.1 = k
    · simp [eraseA, h, ih]
    · simp [eraseA, h, lookupA, ih]

/- ---------------------------------------------------------------
   Characterizations of the permission manager operations.
   --------------------------------------------------------------- -/

theorem respondToRequest_not_found (s : PMState) (requestId : String)
    (approved : Bool) (reason : Option String) (respondedBy : String)
    (hpend : lookupA s.pendingRequests requestId = none) :
    respondToRequest s requestId approved reason respondedBy
      = Except.error (PMError.requestNotFound requestId) := by
  simp [respondToRequest, hpend]

theorem respondToRequest_ok (s : PMState) (requestId : String)
    (approved : Bool) (reason : Option String) (respondedBy : String)
    (request : PermissionRequest)
    (hpend : lookupA s.pendingRequests requestId = some request)
    (hstat : request.status = PermissionStatus.pending) :
    respondToRequest s requestId approved reason respondedBy
      = Except.ok
        ({ s with
            permissionHistory := insertA s.permissionHistory requestId
              { approved := approved, respondedBy := respondedBy, reason := reason },
            pendingRequests := eraseA s.pendingRequests requestId,
            persistedResponses := insertA s.persistedResponses requestId
              { approved := approved, respondedBy := respondedBy, reason := reason } },
         { request with
            response := some { approved := approved, respondedBy := respondedBy, reason := reason },
            status := if approved then PermissionStatus.approved else PermissionStatus.denied }) := by
  simp [respondToRequest, hpend, hstat]

theorem cancelRequest_ok (s : PMState) (requestId reason : String)
    (request : PermissionRequest)
    (hpend : lookupA s.pendingRequests requestId = some request) :
    cancelRequest s requestId reason
      = Except.ok
        ({ s with
            pendingRequests := eraseA s.pendingRequests requestId,
            permissionHistory := insertA s.permissionHistory requestId
              { approved := false, respondedBy := "system", reason := some reason },
            persistedResponses := insertA s.persistedResponses requestId
              { approved := false, respondedBy := "system", reason := some reason } },
         { request with
            status := PermissionStatus.expired,
            response := some { approved := false, respondedBy := "system",
                               reason := some reason } }) := by
  simp [cancelRequest, hpend]

theorem fireRequestTimeout_of_pending (s : PMState) (requestId : String)
    (request : PermissionRequest)
    (hpend : lookupA s.pendingRequests requestId = some request) :
    fireRequestTimeout s requestId
      = ({ s with
            pendingRequests := eraseA s.pendingRequests requestId,
            permissionHistory := insertA s.permissionHistory requestId
              { approved := false, respondedBy := "system", reason := some "Request timeout" },
            persistedResponses := insertA s.persistedResponses requestId
              { approved := false, respondedBy := "system", reason := some "Request timeout" } },
         some { request with
            status := PermissionStatus.expired,
            response := some { approved := false, respondedBy := "system",
                               reason := some "Request timeout" } }) := by
  rw [fireRequestTimeout, if_pos (by simp [hpend]),
    cancelRequest_ok s requestId "Request timeout" request hpend]

/- ---------------------------------------------------------------
   C1: double resolution of an approval request.
   --------------------------------------------------------------- -/

/-- C1 (corrected).  Once respondToRequest has resolved a request,
or the timeout has cancelled it, the entry leaves the pending map,
so any second respondToRequest call for the same id fails — but
with REQUEST_NOT_FOUND, not REQUEST_ALREADY_RESOLVED (the latter
is only reachable for an entry that is still in the pending map
with a non-pending status, which the public operations never
produce).  The stored outcome of the first resolution is in the
history and is unchanged by the failing second call (which returns
an error and no new state). -/
theorem c1_amended_second_respond_not_found (s : PMState) (requestId : String)
    (approved : Bool) (reason : Option String) (respondedBy : String) :
    (∀ s1 req1,
      respondToRequest s requestId approved reason respondedBy = Except.ok (s1, req1) →
      (∀ a2 r2 b2, respondToRequest s1 requestId a2 r2 b2
          = Except.error (PMError.requestNotFound requestId)) ∧
      lookupA s1.permissionHistory requestId
        = some { approved := approved, respondedBy := respondedBy, reason := reason }) ∧
    (∀ req, lookupA s.pendingRequests requestId = some req →
      (∀ a2 r2 b2, respondToRequest (fireRequestTimeout s requestId).1 requestId a2 r2 b2
          = Except.error (PMError.requestNotFound requestId)) ∧
      lookupA (fireRequestTimeout s requestId).1.permissionHistory requestId
        = some { approved := false, respondedBy := "system",
                 reason := some "Request timeout" }) := by
  constructor
  · intro s1 req1 hfirst
    cases hpend : lookupA s.pendingRequests requestId with
    | none =>
      rw [respondToRequest_not_found s requestId approved reason respondedBy hpend] at hfirst
      exact absurd hfirst (by simp)
    | some request =>
      by_cases hstat : request.status = PermissionStatus.pending
      · rw [respondToRequest_ok s requestId approved reason respondedBy request hpend hstat]
          at hfirst
        rw [Except.ok.injEq, Prod.mk.injEq] at hfirst
        obtain ⟨hs1, -⟩ := hfirst
        rw [← hs1]
        constructor
        · intro a2 r2 b2
          exact respondToRequest_not_found _ requestId a2 r2 b2 (lookupA_eraseA_self _ _)
        · exact lookupA_insertA_self _ _ _
      · have : respondToRequest s requestId approved reason respondedBy
            = Except.error (PMError.requestAlreadyResolved requestId) := by
          simp [respondToRequest, hpend, hstat]
        rw [this] at hfirst
        exact absurd hfirst (by simp)
  · intro req hpend
    rw [fireRequestTimeout_of_pending s requestId req hpend]
    constructor
    · intro a2 r2 b2
      exact respondToRequest_not_found _ requestId a2 r2 b2 (lookupA_eraseA_self _ _)
    · exact lookupA_insertA_self _ _ _

/-- Instantiation of the double-resolution theorem on a concrete
manager holding one pending request. -/
theorem c1_witness :
    respondToRequest c1s1 "r1" false (some "again") "other"
      = Except.error (PMError.requestNotFound "r1") ∧
    lookupA c1s1.permissionHistory "r1"
      = some { approved := true, respondedBy := "user", reason := none } :=
  have h := (c1_amended_second_respond_not_found c1s0 "r1" true none "user").1
    c1s1 c1req1 (by decide)
  ⟨h.1 false (some "again") "other", h.2⟩

/-- The original claim fails on the code: on a concrete manager,
after a first successful resolution the second respondToRequest
call errors with REQUEST_NOT_FOUND, which is a different error
from the claimed REQUEST_ALREADY_RESOLVED. -/
theorem c1_counterexample :
    respondToRequest c1s0 "r1" true none "user" = Except.ok (c1s1, c1req1) ∧
    respondToRequest c1s1 "r1" false (some "second") "user2"
      = Except.error (PMError.requestNotFound "r1") ∧
    PMError.requestNotFound "r1" ≠ PMError.requestAlreadyResolved "r1" := by
  refine ⟨by decide, by decide, by decide⟩

/- ---------------------------------------------------------------
   C5: timeout firing.
   --------------------------------------------------------------- -/

/-- C5 (confirmed).  When the timer of a pending request fires,
the request record transitions to status expired, the entry leaves
the pending map, a denial with reason "Request timeout" by
"system" is recorded in the history, and the poll step of the
waiting caller rejects with exactly that reason. -/
theorem c5_timeout_expires_and_denies (s : PMState) (requestId : String)
    (req : PermissionRequest)
    (hpending : lookupA s.pendingRequests requestId = some req) :
    lookupA (fireRequestTimeout s requestId).1.pendingRequests requestId = none ∧
    (fireRequestTimeout s requestId).2 = some
      { req with
          status := PermissionStatus.expired,
          response := some { approved := false, respondedBy := "system",
                             reason := some "Request timeout" } } ∧
    lookupA (fireRequestTimeout s requestId).1.permissionHistory requestId
      = some { approved := false, respondedBy := "system", reason := some "Request timeout" } ∧
    checkResponse (fireRequestTimeout s requestId).1 requestId
      = WaitOutcome.rejectedDenied (some "Request timeout") := by
  have hfire := fireRequestTimeout_of_pending s requestId req hpending
  refine ⟨?_, ?_, ?_, ?_⟩
  · rw [hfire]; exact lookupA_eraseA_self _ _
  · rw [hfire]
  · rw [hfire]; exact lookupA_insertA_self _ _ _
  · rw [hfire]
    unfold checkResponse
    rw [lookupA_insertA_self]
    simp

/-- Instantiation of the timeout theorem on a concrete manager
with one pending 100ms request. -/
theorem c5_witness :
    lookupA (fireRequestTimeout c5s0 "t1").1.pendingRequests "t1" = none ∧
    (fireRequestTimeout c5s0 "t1").2 = some
      { c5req0 with
          status := PermissionStatus.expired,
          response := some { approved := false, respondedBy := "system",
                             reason := some "Request timeout" } } ∧
    lookupA (fireRequestTimeout c5s0 "t1").1.permissionHistory "t1"
      = some { approved := false, respondedBy := "system", reason := some "Request timeout" } ∧
    checkResponse (fireRequestTimeout c5s0 "t1").1 "t1"
      = WaitOutcome.rejectedDenied (some "Request timeout") :=
  c5_timeout_expires_and_denies c5s0 "t1" c5req0 (by decide)

/- ---------------------------------------------------------------
   C10: auto-approval leaves the gate state untouched.
   --------------------------------------------------------------- -/

/-- C10 (confirmed).  When approval is not required for the
operation, requestPermission returns the immediate system approval
and the entire manager state — pending map, history, persisted
records and timers — is returned unchanged. -/
theorem c10_auto_approval_frame (s : PMState) (newId : String) (agent : PersonaType)
    (command context : String)
    (hauto : requiresApproval command (assessRisk command context).level = false) :
    requestPermission s newId agent command context
      = (s, RequestOutcome.autoApproved
          { approved := true, respondedBy := "system",
            reason := some "Auto-approved: low risk operation" }) := by
  unfold requestPermission
  simp [hauto]

/-- Instantiation of the frame theorem on the npm-test scenario
and an arbitrary concrete prior state. -/
theorem c10_witness :
    requestPermission c1s0 "id9" PersonaType.frontendDeveloper "npm test" "running tests"
      = (c1s0, RequestOutcome.autoApproved
          { approved := true, respondedBy := "system",
            reason := some "Auto-approved: low risk operation" }) :=
  c10_auto_approval_frame c1s0 "id9" PersonaType.frontendDeveloper "npm test" "running tests"
    (by decide)

/- ---------------------------------------------------------------
   Lemmas about the assessRisk accumulator.
   --------------------------------------------------------------- -/

theorem riskRuleStep_score_le (command : String) (acc : RiskAcc) (rule : PermissionRule) :
    acc.score ≤ (riskRuleStep command acc rule).score := by
  unfold riskRuleStep
  split
  · simp
  · exact le_refl _

theorem foldl_riskRuleStep_score_le (command : String) (rules : List PermissionRule)
    (acc : RiskAcc) : acc.score ≤ (rules.foldl (riskRuleStep command) acc).score := by
  induction rules generalizing acc with
  | nil => exact le_refl _
  | cons r rs ih =>
    rw [List.foldl_cons]
    exact le_trans (riskRuleStep_score_le command acc r) (ih _)

theorem foldl_riskRuleStep_ge_of_mem (command : String) (rules : List PermissionRule)
    (rule : PermissionRule) (acc : RiskAcc) (hmem : rule ∈ rules)
    (ht : ruleTest rule command = true) :
    acc.score + getRiskScore rule.riskLevel ≤ (rules.foldl (riskRuleStep command) acc).score := by
  induction rules generalizing acc with
  | nil => cases hmem
  | cons r rs ih =>
    rw [List.foldl_cons]
    rcases List.mem_cons.mp hmem with heq | hmem2
    · subst heq
      have h1 : (riskRuleStep command acc rule).score = acc.score + getRiskScore rule.riskLevel := by
        unfold riskRuleStep
        rw [if_pos ht]
      rw [← h1]
      exact foldl_riskRuleStep_score_le command rs _
    · have h2 := riskRuleStep_score_le command acc r
      have h3 := ih (riskRuleStep command acc r) hmem2
      omega

theorem foldl_riskRuleStep_no_match (command : String) (rules : List PermissionRule)
    (acc : RiskAcc) (h : ∀ r ∈ rules, ruleTest r command = false) :
    rules.foldl (riskRuleStep command) acc = acc := by
  induction rules generalizing acc with
  | nil => rfl
  | cons r rs ih =>
    rw [List.foldl_cons]
    have hr : riskRuleStep command acc r = acc := by
      unfold riskRuleStep
      rw [if_neg (by simp [h r (List.mem_cons_self r rs)])]
    rw [hr]
    exact ih acc (fun x hx => h x (List.mem_cons_of_mem r hx))

theorem permissionRules_min_score : ∀ r ∈ permissionRules, 30 ≤ getRiskScore r.riskLevel := by
  decide

theorem productionAdjust_score_le (context : String) (acc : RiskAcc) :
    acc.score ≤ (productionAdjust context acc).score := by
  unfold productionAdjust
  split
  · simp
  · exact le_refl _

theorem databaseAdjust_score_le (context : String) (acc : RiskAcc) :
    acc.score ≤ (databaseAdjust context acc).score := by
  unfold databaseAdjust
  split
  · simp
  · exact le_refl _

theorem sudoAdjust_score_le (command : String) (acc : RiskAcc) :
    acc.score ≤ (sudoAdjust command acc).score := by
  unfold sudoAdjust
  split
  · simp
  · exact le_refl _

theorem databaseAdjust_level (context : String) (acc : RiskAcc) :
    (databaseAdjust context acc).level = acc.level := by
  unfold databaseAdjust
  split <;> rfl

theorem sudoAdjust_level (command : String) (acc : RiskAcc) :
    (sudoAdjust command acc).level = acc.level := by
  unfold sudoAdjust
  split <;> rfl

theorem baseAcc_score_le_finalAcc (command context : String) :
    (baseAcc command).score ≤ (finalAcc command context).score := by
  unfold finalAcc
  exact le_trans (productionAdjust_score_le context (baseAcc command))
    (le_trans (databaseAdjust_score_le context _) (sudoAdjust_score_le command _))

theorem no_match_of_baseAcc_score_lt30 (command : String)
    (h : (baseAcc command).score < 30) :
    ∀ r ∈ permissionRules, ruleTest r command = false := by
  intro r hr
  by_contra hc
  have ht : ruleTest r command = true := by
    cases hv : ruleTest r command
    · exact absurd hv hc
    · rfl
  have h1 := foldl_riskRuleStep_ge_of_mem command permissionRules r ⟨0, [], RiskLevel.low⟩ hr ht
  have h2 := permissionRules_min_score r hr
  unfold baseAcc at h
  omega

theorem finalAcc_level_of_score_lt20 (command context : String)
    (h : (finalAcc command context).score < 20) :
    (finalAcc command context).level = RiskLevel.low := by
  have hb : (baseAcc command).score < 20 :=
    lt_of_le_of_lt (baseAcc_score_le_finalAcc command context) h
  have hnm := no_match_of_baseAcc_score_lt30 command (by omega)
  have hbase : baseAcc command = ⟨0, [], RiskLevel.low⟩ :=
    foldl_riskRuleStep_no_match command permissionRules _ hnm
  unfold finalAcc at h ⊢
  cases hp : (strContains context "production" || strContains context "prod") with
  | true =>
    exfalso
    have h1 : (productionAdjust context (baseAcc command)).score = (baseAcc command).score + 30 := by
      unfold productionAdjust
      rw [if_pos hp]
    have h2 := databaseAdjust_score_le context (productionAdjust context (baseAcc command))
    have h3 := sudoAdjust_score_le command
      (databaseAdjust context (productionAdjust context (baseAcc command)))
    omega
  | false =>
    have hpe : productionAdjust context (baseAcc command) = baseAcc command := by
      unfold productionAdjust
      rw [if_neg (by simp [hp])]
    rw [sudoAdjust_level, databaseAdjust_level, hpe, hbase]

/- ---------------------------------------------------------------
   C3: the final risk level.
   --------------------------------------------------------------- -/

/-- C3 (corrected).  The level assessRisk returns always equals
the level derived from the score thresholds (the threshold step
runs last and overrides the rule-derived level whenever the score
reaches 20, and below 20 no rule can have matched, so the carried
level is still low); the rule level never overrides the
score-derived level.  Because every matching rule contributes at
least the score of its own category, a match of a critical rule
forces a score of at least 100 and hence the level critical. -/
theorem c3_amended_score_level_wins (command context : String) :
    (assessRisk command context).level = scoreLevel (assessRisk command context).score ∧
    (∀ rule ∈ permissionRules, rule.riskLevel = RiskLevel.critical →
      ruleTest rule command = true → (assessRisk command context).level = RiskLevel.critical) := by
  constructor
  · show (assessRisk command context).level = scoreLevel (assessRisk command context).score
    have hsc : (assessRisk command context).score = (finalAcc command context).score := rfl
    unfold assessRisk scoreLevel
    by_cases h80 : (finalAcc command context).score ≥ 80
    · simp [h80]
    · by_cases h50 : (finalAcc command context).score ≥ 50
      · simp [h80, h50]
      · by_cases h20 : (finalAcc command context).score ≥ 20
        · simp [h80, h50, h20]
        · simp only [h80, h50, h20, if_false, ite_false]
          exact finalAcc_level_of_score_lt20 command context (by omega)
  · intro rule hmem hcrit ht
    have h1 := foldl_riskRuleStep_ge_of_mem command permissionRules rule
      ⟨0, [], RiskLevel.low⟩ hmem ht
    rw [hcrit] at h1
    have h2 : (finalAcc command context).score ≥ 80 := by
      have h3 := baseAcc_score_le_finalAcc command context
      unfold baseAcc at h3
      simp [getRiskScore] at h1
      omega
    unfold assessRisk
    simp [h2]

/-- Instantiation: the critical destructive-filesystem rule (the
first rule) matches "rm -rf /", so the assessment is critical. -/
theorem c3_witness :
    (assessRisk "rm -rf /" "production deployment").level = RiskLevel.critical :=
  (c3_amended_score_level_wins "rm -rf /" "production deployment").2
    (permissionRules.head (by decide))
    (List.head_mem (by decide))
    (by decide)
    (by decide)

/-- The original claim fails on the code: for the command
"sudo npm install -g pkg" (which matches only the medium
global-package rule) with empty context, the claim says the rule
level medium wins over the score-derived level high (score 55 = 30
from the rule plus 25 for sudo), but assessRisk returns high. -/
theorem c3_counterexample :
    claimedAssessLevel "sudo npm install -g pkg" "" = RiskLevel.medium ∧
    (assessRisk "sudo npm install -g pkg" "").level = RiskLevel.high ∧
    RiskLevel.medium ≠ RiskLevel.high := by
  refine ⟨by decide, by decide, by decide⟩

/- ---------------------------------------------------------------
   C9: auto-approval of low-risk operations.
   --------------------------------------------------------------- -/

theorem assessRisk_level_low_no_match (command context : String)
    (hlow : (assessRisk command context).level = RiskLevel.low) :
    ∀ r ∈ permissionRules, ruleTest r command = false := by
  have hs : (finalAcc command context).score < 20 := by
    by_contra hge
    unfold assessRisk at hlow
    by_cases h80 : (finalAcc command context).score ≥ 80
    · simp [h80] at hlow
    · by_cases h50 : (finalAcc command context).score ≥ 50
      · simp [h80, h50] at hlow
      · simp [h80, h50, (by omega : (finalAcc command context).score ≥ 20)] at hlow
  have hb : (baseAcc command).score < 30 :=
    lt_of_le_of_lt (baseAcc_score_le_finalAcc command context) (by omega)
  exact no_match_of_baseAcc_score_lt30 command hb

/-- C9 (confirmed).  Every operation assessed at level low is
auto-approved by requestPermission: a low level means (score below
20, hence) no pattern rule matched the command, so
requiresApproval falls through to its default, which does not
require approval for low; the call returns immediately with the
system-attributed approval and touches no state.  The npm-test
concrete scenario is part of the statement. -/
theorem c9_low_auto_approved (s : PMState) (newId : String) (agent : PersonaType)
    (command context : String)
    (hlow : (assessRisk command context).level = RiskLevel.low) :
    requestPermission s newId agent command context
      = (s, RequestOutcome.autoApproved
          { approved := true, respondedBy := "system",
            reason := some "Auto-approved: low risk operation" }) ∧
    (assessRisk "npm test" "running tests").level = RiskLevel.low := by
  constructor
  · have hreq : requiresApproval command (assessRisk command context).level = false := by
      rw [hlow]
      have hnone : permissionRules.find? (fun rule => ruleTest rule command) = none := by
        rw [List.find?_eq_none]
        intro r hr
        simp [assessRisk_level_low_no_match command context hlow r hr]
      simp [requiresApproval, hnone]
    unfold requestPermission
    simp [hreq]
  · decide

/-- Instantiation on the npm-test scenario. -/
theorem c9_witness :
    requestPermission initialPMState "id1" PersonaType.frontendDeveloper
        "npm test" "running tests"
      = (initialPMState, RequestOutcome.autoApproved
          { approved := true, respondedBy := "system",
            reason := some "Auto-approved: low risk operation" }) :=
  (c9_low_auto_approved initialPMState "id1" PersonaType.frontendDeveloper
    "npm test" "running tests" (by decide)).1

/- ---------------------------------------------------------------
   Lemmas about the score sort of selectOptimalAgent.
   --------------------------------------------------------------- -/

theorem insertScoreDesc_head (x : PersonaType × Int) (l : List (PersonaType × Int)) :
    (insertScoreDesc x l).head? = some (match l.head? with
      | none => x
      | some y => if x.2 < y.2 then y else x) := by
  cases l with
  | nil => rfl
  | cons y ys =>
    unfold insertScoreDesc
    by_cases h : x.2 < y.2
    · simp [h]
    · simp [h]

theorem sortScoresDesc_head (l : List (PersonaType × Int)) :
    (sortScoresDesc l).head? = firstMaxPair l := by
  induction l with
  | nil => rfl
  | cons x xs ih =>
    show (insertScoreDesc x (sortScoresDesc xs)).head? = firstMaxPair (x :: xs)
    rw [insertScoreDesc_head, ih]
    cases hfm : firstMaxPair xs with
    | none => simp [firstMaxPair, hfm]
    | some b => by_cases h : x.2 < b.2 <;> simp [firstMaxPair, hfm, h]

theorem insertScoreDesc_length (x : PersonaType × Int) (l : List (PersonaType × Int)) :
    (insertScoreDesc x l).length = l.length + 1 := by
  induction l with
  | nil => rfl
  | cons y ys ih =>
    unfold insertScoreDesc
    by_cases h : x.2 < y.2
    · simp [h, ih]
    · simp [h]

theorem sortScoresDesc_length (l : List (PersonaType × Int)) :
    (sortScoresDesc l).length = l.length := by
  induction l with
  | nil => rfl
  | cons x xs ih =>
    show (insertScoreDesc x (sortScoresDesc xs)).length = _
    rw [insertScoreDesc_length, ih, List.length_cons]

/- ---------------------------------------------------------------
   C8: deterministic selection.
   --------------------------------------------------------------- -/

/-- C8 (confirmed).  Selection is a pure function of the roster
and the task text, and it equals the canonical first-maximum
choice: the worker selected is exactly the first one, in the
declaration order of the agents map, whose score attains the
maximum (the stable descending sort puts the earliest of the
equal-score agents first).  Two runs on the same state therefore
always select the same worker, with ties broken by declaration
order. -/
theorem c8_selection_is_first_max (agents : List Agent) (task : Task) :
    selectOptimalAgent agents task
      = (firstMaxPair (agents.map (fun a =>
          (a.persona, scoreAgent (analyzeTaskRequirements task).keywords a)))).map
            (fun x => x.1) := by
  unfold selectOptimalAgent
  rw [← sortScoresDesc_head]
  cases hs : sortScoresDesc (agents.map (fun a =>
      (a.persona, scoreAgent (analyzeTaskRequirements task).keywords a))) with
  | nil => simp [hs]
  | cons b rest => simp [hs]

/- ---------------------------------------------------------------
   C4: task submission.
   --------------------------------------------------------------- -/

/-- C4 (corrected).  assignTask fails with INVALID_TASK exactly
when the identity or the title is the empty string.  But no
NoEligibleWorker failure exists in the code: selectOptimalAgent
neither filters errored workers nor checks the sign of the scores;
on every nonempty roster it returns a worker (the first one with
maximal score), and the task is enqueued with that worker unless
its context requirement exceeds the limit of the worker, in which
case the error is CONTEXT_LIMIT_EXCEEDED. -/
theorem c4_amended_no_eligibility_failure (st : OrchState) (task : Task) :
    ((task.id = "" ∨ task.title = "") →
      assignTask st task = Except.error AssignTaskError.invalidTask) ∧
    (st.agents ≠ [] → (selectOptimalAgent st.agents task).isSome = true) ∧
    (task.id ≠ "" → task.title ≠ "" → task.assignedAgent = none →
      ∀ p a, selectOptimalAgent st.agents task = some p →
        st.agents.find? (fun x => x.persona = p) = some a →
        (¬ fLt a.contextLimit task.contextRequirement →
          assignTask st task = Except.ok
            { st with taskQueue := st.taskQueue ++ [{ task with assignedAgent := some p }] }) ∧
        (fLt a.contextLimit task.contextRequirement →
          assignTask st task = Except.error
            (AssignTaskError.contextLimitExceeded task.contextRequirement a.contextLimit))) := by
  refine ⟨?_, ?_, ?_⟩
  · intro h
    have hcond : (task.id = "" || task.title = "") = true := by
      rcases h with h | h <;> simp [h]
    unfold assignTask
    rw [if_pos (by simp [hcond])]
  · intro hne
    unfold selectOptimalAgent
    cases hs : sortScoresDesc (st.agents.map (fun a =>
        (a.persona, scoreAgent (analyzeTaskRequirements task).keywords a))) with
    | nil =>
      exfalso
      have h1 := sortScoresDesc_length (st.agents.map (fun a =>
        (a.persona, scoreAgent (analyzeTaskRequirements task).keywords a)))
      rw [hs] at h1
      simp only [List.length_nil, List.length_map] at h1
      exact hne (List.length_eq_zero.mp h1.symm)
    | cons b rest => simp [hs]
  · intro hid htitle hnone p a hsel hfind
    have hcond : (task.id = "" || task.title = "") = false := by
      simp [hid, htitle]
    constructor
    · intro hle
      unfold assignTask
      rw [if_neg (by simp [hcond])]
      simp only [hnone, hsel, hfind]
      rw [if_neg hle]
    · intro hgt
      unfold assignTask
      rw [if_neg (by simp [hcond])]
      simp only [hnone, hsel, hfind]
      rw [if_pos hgt]

/-- Instantiation: on the concrete roster where every worker
scores at most zero, the task is still enqueued with the first
maximal-score worker. -/
theorem c4_witness :
    assignTask c4state c4task = Except.ok
      { c4state with taskQueue := c4state.taskQueue
          ++ [{ c4task with assignedAgent := some PersonaType.requirementsAnalyst }] } :=
  (((c4_amended_no_eligibility_failure c4state c4task).2.2
      (by decide) (by decide) rfl
      PersonaType.requirementsAnalyst (c4agents.head (by decide))
      (by decide) (by decide)).1 (by decide))

/-- The original claim fails on the code: on a concrete roster in
which, after excluding the errored workers, every remaining worker
scores at most zero (indeed every worker scores at most zero), the
claim demands a NoEligibleWorker failure, yet assignTask succeeds
and enqueues the task. -/
theorem c4_counterexample :
    (c4state.agents.all (fun a =>
      decide (scoreAgent (analyzeTaskRequirements c4task).keywords a ≤ 0))) = true ∧
    (c4state.agents.any (fun a => decide (a.status = AgentStatus.error))) = true ∧
    isOkE (assignTask c4state c4task) = true := by
  refine ⟨by decide, by decide, by decide⟩

/- ---------------------------------------------------------------
   Frame lemmas for the ledger state operations.
   --------------------------------------------------------------- -/

@[simp] theorem setWindow_windows_self (s : CMState) (p : PersonaType) (w : ContextWindow) :
    (setWindow s p w).windows p = w := by
  simp [setWindow]

theorem setWindow_windows_ne (s : CMState) (p : PersonaType) (w : ContextWindow)
    (q : PersonaType) (h : q ≠ p) : (setWindow s p w).windows q = s.windows q := by
  simp [setWindow, h]

@[simp] theorem setWindow_limits (s : CMState) (p : PersonaType) (w : ContextWindow) :
    (setWindow s p w).limits = s.limits := rfl

@[simp] theorem setWindow_agentUsage (s : CMState) (p : PersonaType) (w : ContextWindow) :
    (setWindow s p w).agentUsage = s.agentUsage := rfl

@[simp] theorem setAgentUsage_windows (s : CMState) (p : PersonaType) (v : Frac) :
    (setAgentUsage s p v).windows = s.windows := rfl

@[simp] theorem setAgentUsage_limits (s : CMState) (p : PersonaType) (v : Frac) :
    (setAgentUsage s p v).limits = s.limits := rfl

@[simp] theorem setAgentUsage_agentUsage_self (s : CMState) (p : PersonaType) (v : Frac) :
    (setAgentUsage s p v).agentUsage p = v := by
  simp [setAgentUsage]

@[simp] theorem updateTotalUsage_windows (s : CMState) :
    (updateTotalUsage s).windows = s.windows := rfl

@[simp] theorem updateTotalUsage_agentUsage (s : CMState) :
    (updateTotalUsage s).agentUsage = s.agentUsage := rfl

@[simp] theorem updateTotalUsage_limits (s : CMState) :
    (updateTotalUsage s).limits = s.limits := rfl

theorem meanOk_updateTotalUsage (s : CMState) : meanOk (updateTotalUsage s) := by
  simp [meanOk, updateTotalUsage, fEq]

/- ---------------------------------------------------------------
   Lemmas about removeContext and the cleanup loop.
   --------------------------------------------------------------- -/

theorem removeFirstByPath_rest_sublist (items : List ContextItem) (path : String)
    (removed : ContextItem) (rest : List ContextItem)
    (h : removeFirstByPath items path = some (removed, rest)) :
    rest.Sublist items := by
  induction items generalizing rest with
  | nil => simp [removeFirstByPath] at h
  | cons it tl ih =>
    unfold removeFirstByPath at h
    by_cases hp : it.path = path
    · rw [if_pos hp] at h
      injection h with h2
      injection h2 with hr hrest
      rw [← hrest]
      exact List.sublist_cons_self it tl
    · rw [if_neg hp] at h
      cases hrec : removeFirstByPath tl path with
      | none => rw [hrec] at h; exact absurd h (by simp)
      | some pr =>
        rw [hrec] at h
        injection h with h2
        injection h2 with hr hrest
        rw [← hrest]
        exact List.Sublist.cons₂ it (ih pr.2 (by rw [hrec, ← hr]))

theorem removeContext_limits (s : CMState) (p : PersonaType) (path : String) :
    (removeContext s p path).1.limits = s.limits := by
  cases hrf : removeFirstByPath (s.windows p).items path with
  | none => simp [removeContext, hrf]
  | some pr =>
    obtain ⟨removed, items2⟩ := pr
    simp [removeContext, hrf]

theorem removeContext_windows_ne (s : CMState) (p : PersonaType) (path : String)
    (q : PersonaType) (h : q ≠ p) :
    (removeContext s p path).1.windows q = s.windows q := by
  cases hrf : removeFirstByPath (s.windows p).items path with
  | none => simp [removeContext, hrf]
  | some pr =>
    obtain ⟨removed, items2⟩ := pr
    simp [removeContext, hrf, setWindow_windows_ne s p _ q h]

theorem removeContext_usage_le (s : CMState) (p : PersonaType) (path : String) :
    ((removeContext s p path).1.windows p).currentUsage ≤ (s.windows p).currentUsage := by
  cases hrf : removeFirstByPath (s.windows p).items path with
  | none => simp [removeContext, hrf]
  | some pr =>
    obtain ⟨removed, items2⟩ := pr
    simp only [removeContext, hrf, updateTotalUsage_windows, setAgentUsage_windows,
      setWindow_windows_self]
    omega

theorem removeContext_items_sublist (s : CMState) (p : PersonaType) (path : String) :
    ((removeContext s p path).1.windows p).items.Sublist (s.windows p).items := by
  cases hrf : removeFirstByPath (s.windows p).items path with
  | none => simp [removeContext, hrf]
  | some pr =>
    obtain ⟨removed, items2⟩ := pr
    simp only [removeContext, hrf, updateTotalUsage_windows, setAgentUsage_windows,
      setWindow_windows_self]
    exact removeFirstByPath_rest_sublist _ _ removed items2 hrf

theorem cleanupFold_limits (paths : List String) (s : CMState) (p : PersonaType) :
    (paths.foldl (fun st q => (removeContext st p q).1) s).limits = s.limits := by
  induction paths generalizing s with
  | nil => rfl
  | cons q rest ih =>
    rw [List.foldl_cons, ih, removeContext_limits]

theorem cleanupFold_windows_ne (paths : List String) (s : CMState) (p : PersonaType)
    (q : PersonaType) (h : q ≠ p) :
    (paths.foldl (fun st r => (removeContext st p r).1) s).windows q = s.windows q := by
  induction paths generalizing s with
  | nil => rfl
  | cons r rest ih =>
    rw [List.foldl_cons, ih, removeContext_windows_ne s p r q h]

theorem cleanupFold_usage_le (paths : List String) (s : CMState) (p : PersonaType) :
    ((paths.foldl (fun st r => (removeContext st p r).1) s).windows p).currentUsage
      ≤ (s.windows p).currentUsage := by
  induction paths generalizing s with
  | nil => exact le_refl _
  | cons r rest ih =>
    rw [List.foldl_cons]
    exact le_trans (ih _) (removeContext_usage_le s p r)

theorem cleanupFold_items_sublist (paths : List String) (s : CMState) (p : PersonaType) :
    ((paths.foldl (fun st r => (removeContext st p r).1) s).windows p).items.Sublist
      (s.windows p).items := by
  induction paths generalizing s with
  | nil => exact List.Sublist.refl _
  | cons r rest ih =>
    rw [List.foldl_cons]
    exact List.Sublist.trans (ih _) (removeContext_items_sublist s p r)

theorem performAutomaticCleanup_limits (s : CMState) (p : PersonaType) (required : Nat) :
    (performAutomaticCleanup s p required).limits = s.limits :=
  cleanupFold_limits _ s p

theorem performAutomaticCleanup_windows_ne (s : CMState) (p : PersonaType) (required : Nat)
    (q : PersonaType) (h : q ≠ p) :
    (performAutomaticCleanup s p required).windows q = s.windows q :=
  cleanupFold_windows_ne _ s p q h

theorem performAutomaticCleanup_usage_le (s : CMState) (p : PersonaType) (required : Nat) :
    ((performAutomaticCleanup s p required).windows p).currentUsage
      ≤ (s.windows p).currentUsage :=
  cleanupFold_usage_le _ s p

theorem performAutomaticCleanup_items_sublist (s : CMState) (p : PersonaType) (required : Nat) :
    ((performAutomaticCleanup s p required).windows p).items.Sublist (s.windows p).items :=
  cleanupFold_items_sublist _ s p

/- ---------------------------------------------------------------
   finishAdd and addContext characterizations.
   --------------------------------------------------------------- -/

theorem finishAdd_windows_self (s : CMState) (p : PersonaType) (item : ContextItem)
    (pct : Frac) :
    (finishAdd s p item pct).windows p
      = { s.windows p with
            items := (s.windows p).items ++ [item],
            currentUsage := (s.windows p).currentUsage + (item.size : Int) } := by
  simp [finishAdd]

theorem finishAdd_windows_ne (s : CMState) (p : PersonaType) (item : ContextItem)
    (pct : Frac) (q : PersonaType) (h : q ≠ p) :
    (finishAdd s p item pct).windows q = s.windows q := by
  simp [finishAdd, setWindow_windows_ne s p _ q h]

theorem finishAdd_limits (s : CMState) (p : PersonaType) (item : ContextItem) (pct : Frac) :
    (finishAdd s p item pct).limits = s.limits := rfl

theorem finishAdd_agentUsage_self (s : CMState) (p : PersonaType) (item : ContextItem)
    (pct : Frac) : (finishAdd s p item pct).agentUsage p = pct := by
  simp [finishAdd]

theorem finishAdd_meanOk (s : CMState) (p : PersonaType) (item : ContextItem) (pct : Frac) :
    meanOk (finishAdd s p item pct) :=
  meanOk_updateTotalUsage _

theorem addContext_no_evict (s : CMState) (p : PersonaType) (i : ContextItem)
    (h : ¬ fLt s.limits.maxPercentage
      (usagePct ((s.windows p).currentUsage + (calculateItemSize i : Int))
        (getContextCapacity p))) :
    addContext s p i = Except.ok
      (finishAdd s p { i with size := calculateItemSize i }
        (usagePct ((s.windows p).currentUsage + (calculateItemSize i : Int))
          (getContextCapacity p))) := by
  simp [addContext, h]

theorem addContext_evict_ok (s : CMState) (p : PersonaType) (i : ContextItem)
    (h1 : fLt s.limits.maxPercentage
      (usagePct ((s.windows p).currentUsage + (calculateItemSize i : Int))
        (getContextCapacity p)))
    (h2 : ¬ fLt (performAutomaticCleanup s p (calculateItemSize i)).limits.maxPercentage
      (usagePct (((performAutomaticCleanup s p (calculateItemSize i)).windows p).currentUsage
          + (calculateItemSize i : Int)) (getContextCapacity p))) :
    addContext s p i = Except.ok
      (finishAdd (performAutomaticCleanup s p (calculateItemSize i)) p
        { i with size := calculateItemSize i }
        (usagePct ((s.windows p).currentUsage + (calculateItemSize i : Int))
          (getContextCapacity p))) := by
  simp [addContext, h1, h2]

theorem addContext_evict_err (s : CMState) (p : PersonaType) (i : ContextItem)
    (h1 : fLt s.limits.maxPercentage
      (usagePct ((s.windows p).currentUsage + (calculateItemSize i : Int))
        (getContextCapacity p)))
    (h2 : fLt (performAutomaticCleanup s p (calculateItemSize i)).limits.maxPercentage
      (usagePct (((performAutomaticCleanup s p (calculateItemSize i)).windows p).currentUsage
          + (calculateItemSize i : Int)) (getContextCapacity p))) :
    addContext s p i = Except.error
      (AddContextError.contextOverflow
        (usagePct (((performAutomaticCleanup s p (calculateItemSize i)).windows p).currentUsage
          + (calculateItemSize i : Int)) (getContextCapacity p))
        (performAutomaticCleanup s p (calculateItemSize i)).limits.maxPercentage,
       performAutomaticCleanup s p (calculateItemSize i)) := by
  simp [addContext, h1, h2]

/- ---------------------------------------------------------------
   Arithmetic lemmas for the budget bound.
   --------------------------------------------------------------- -/

theorem fLe_of_not_fLt (a b : Frac) (h : ¬ fLt a b) : fLe b a := by
  unfold fLt at h
  unfold fLe
  omega

theorem usagePct_mono_le (u v : Int) (cap : Nat) (lim : Frac) (huv : u ≤ v)
    (h : fLe (usagePct v cap) lim) : fLe (usagePct u cap) lim := by
  unfold fLe usagePct fMul fInt at h ⊢
  simp only at h ⊢
  have h1 : u * 100 * (lim.den : Int) ≤ v * 100 * (lim.den : Int) := by
    have h2 : u * 100 ≤ v * 100 := by omega
    exact mul_le_mul_of_nonneg_right h2 (Int.natCast_nonneg _)
  exact le_trans h1 h

/- ---------------------------------------------------------------
   The budget invariant.
   --------------------------------------------------------------- -/

/-- All eight windows are within the ceiling. -/
def InvAll (s : CMState) : Prop := ∀ p, usageWithinLimit s p

theorem invAll_initial : InvAll initialCMState := by
  intro p
  unfold usageWithinLimit truePct
  cases p <;> decide

theorem invAll_removeContext (s : CMState) (p : PersonaType) (path : String)
    (hinv : InvAll s) : InvAll (removeContext s p path).1 := by
  intro q
  unfold usageWithinLimit truePct
  rw [removeContext_limits]
  by_cases hq : q = p
  · subst hq
    exact usagePct_mono_le _ _ _ _ (removeContext_usage_le s q path) (hinv q)
  · rw [removeContext_windows_ne s p path q hq]
    exact hinv q

theorem invAll_cleanupFold (paths : List String) (s : CMState) (p : PersonaType)
    (hinv : InvAll s) :
    InvAll (paths.foldl (fun st r => (removeContext st p r).1) s) := by
  induction paths generalizing s with
  | nil => exact hinv
  | cons r rest ih =>
    rw [List.foldl_cons]
    exact ih _ (invAll_removeContext s p r hinv)

theorem invAll_performAutomaticCleanup (s : CMState) (p : PersonaType) (required : Nat)
    (hinv : InvAll s) : InvAll (performAutomaticCleanup s p required) :=
  invAll_cleanupFold _ s p hinv

theorem invAll_finishAdd (s : CMState) (p : PersonaType) (i : ContextItem)
    (hinv : InvAll s)
    (hbound : ¬ fLt s.limits.maxPercentage
      (usagePct ((s.windows p).currentUsage + ((calculateItemSize i : Nat) : Int))
        (getContextCapacity p))) :
    InvAll (finishAdd s p { i with size := calculateItemSize i }
      (usagePct ((s.windows p).currentUsage + (calculateItemSize i : Int))
        (getContextCapacity p))) := by
  intro q
  unfold usageWithinLimit truePct
  rw [finishAdd_limits]
  by_cases hq : q = p
  · subst hq
    rw [finishAdd_windows_self]
    exact fLe_of_not_fLt _ _ hbound
  · rw [finishAdd_windows_ne s p _ _ q hq]
    exact hinv q

theorem invAll_addContext (s : CMState) (p : PersonaType) (i : ContextItem)
    (hinv : InvAll s) : InvAll (runOp s (CMOp.add p i)) := by
  by_cases h1 : fLt s.limits.maxPercentage
    (usagePct ((s.windows p).currentUsage + (calculateItemSize i : Int))
      (getContextCapacity p))
  · by_cases h2 : fLt (performAutomaticCleanup s p (calculateItemSize i)).limits.maxPercentage
      (usagePct (((performAutomaticCleanup s p (calculateItemSize i)).windows p).currentUsage
          + (calculateItemSize i : Int)) (getContextCapacity p))
    · simp only [runOp, addContext_evict_err s p i h1 h2]
      exact invAll_performAutomaticCleanup s p _ hinv
    · simp only [runOp, addContext_evict_ok s p i h1 h2]
      have hcl := invAll_performAutomaticCleanup s p (calculateItemSize i) hinv
      have hlim : (performAutomaticCleanup s p (calculateItemSize i)).limits = s.limits :=
        performAutomaticCleanup_limits s p _
      have hfin := invAll_finishAdd (performAutomaticCleanup s p (calculateItemSize i)) p i
        hcl (by rw [hlim]; exact (by rw [← hlim]; exact h2))
      -- the recorded percentage differs from the one invAll_finishAdd uses, but the
      -- invariant does not mention the recorded percentage
      intro q
      unfold usageWithinLimit truePct
      rw [finishAdd_limits, hlim]
      by_cases hq : q = p
      · subst hq
        rw [finishAdd_windows_self]
        have := fLe_of_not_fLt _ _ h2
        rw [hlim] at this
        exact this
      · rw [finishAdd_windows_ne _ p _ _ q hq]
        have := hcl q
        unfold usageWithinLimit truePct at this
        rw [hlim] at this
        exact this
  · simp only [runOp, addContext_no_evict s p i h1]
    exact invAll_finishAdd s p i hinv h1

theorem invAll_runOp (s : CMState) (op : CMOp) (hinv : InvAll s) : InvAll (runOp s op) := by
  cases op with
  | add p i => exact invAll_addContext s p i hinv
  | remove p path => exact invAll_removeContext s p path hinv

theorem invAll_runOps (ops : List CMOp) :
    InvAll (runOps initialCMState ops) := by
  have h : ∀ (s : CMState), InvAll s → InvAll (runOps s ops) := by
    induction ops with
    | nil => intro s hs; exact hs
    | cons op rest ih =>
      intro s hs
      exact ih _ (invAll_runOp s op hs)
  exact h initialCMState invAll_initial

theorem addContext_error_state (s : CMState) (p : PersonaType) (i : ContextItem)
    (e : AddContextError) (s2 : CMState)
    (h : addContext s p i = Except.error (e, s2)) :
    s2 = performAutomaticCleanup s p (calculateItemSize i) := by
  by_cases h1 : fLt s.limits.maxPercentage
    (usagePct ((s.windows p).currentUsage + (calculateItemSize i : Int))
      (getContextCapacity p))
  · by_cases h2 : fLt (performAutomaticCleanup s p (calculateItemSize i)).limits.maxPercentage
      (usagePct (((performAutomaticCleanup s p (calculateItemSize i)).windows p).currentUsage
          + (calculateItemSize i : Int)) (getContextCapacity p))
    · rw [addContext_evict_err s p i h1 h2] at h
      rw [Except.error.injEq, Prod.mk.injEq] at h
      exact h.2.symm
    · rw [addContext_evict_ok s p i h1 h2] at h
      exact absurd h (by simp)
  · rw [addContext_no_evict s p i h1] at h
    exact absurd h (by simp)

/- ---------------------------------------------------------------
   C2: the budget invariant.
   --------------------------------------------------------------- -/

/-- C2 (confirmed).  Along every sequence of reservations and
releases from the initial (empty) ledger, the running consumption
of every window stays at or below capacity times the ceiling
percentage; moreover, a further reservation either succeeds and
the bound holds again for the resulting state (in the overflow
case only after the eviction pass brought the new total within the
ceiling, since the success condition is exactly that check), or it
fails with the ContextOverflowError and the window holds no new
item (its items are a sub-list of the previous ones: evictions may
have removed some, nothing was added). -/
theorem c2_budget_invariant (ops : List CMOp) (p : PersonaType) (i : ContextItem) :
    usageWithinLimit (runOps initialCMState ops) p ∧
    (match addContext (runOps initialCMState ops) p i with
     | Except.ok s2 => usageWithinLimit s2 p
     | Except.error (_, s2) =>
         ((s2.windows p).items).Sublist (((runOps initialCMState ops).windows p).items) ∧
         usageWithinLimit s2 p) := by
  have hinv := invAll_runOps ops
  refine ⟨hinv p, ?_⟩
  have hro := invAll_addContext (runOps initialCMState ops) p i hinv p
  cases haddc : addContext (runOps initialCMState ops) p i with
  | ok s2 =>
    simp only [runOp, haddc] at hro
    exact hro
  | error pr =>
    obtain ⟨e, s2⟩ := pr
    simp only [runOp, haddc] at hro
    refine ⟨?_, hro⟩
    rw [addContext_error_state _ p i e s2 haddc]
    exact performAutomaticCleanup_items_sublist _ p _

/- ---------------------------------------------------------------
   C7: the recorded percentages and the aggregate.
   --------------------------------------------------------------- -/

theorem fEq_refl (a : Frac) : fEq a a := rfl

/-- C7 (corrected).  After removeContext (when it removes
something), cleanup and emergencyCleanup, the recorded per-persona
percentage equals the true percentage of the window and the
aggregate equals the mean of the recorded percentages.  After a
successful addContext however, the recorded percentage is always
the attempted percentage (old consumption plus the new item size
over capacity) computed before any cleanup — in the eviction path
this is the stale pre-eviction value, not the true percentage of
the resulting window.  The aggregate always equals the mean of the
recorded values. -/
theorem c7_amended_stale_record_after_eviction (s : CMState) (p : PersonaType)
    (i : ContextItem) (path : String) :
    (match removeContext s p path with
     | (s2, true) => fEq (s2.agentUsage p) (truePct s2 p) ∧ meanOk s2
     | (s2, false) => s2 = s) ∧
    (match addContext s p i with
     | Except.ok s2 =>
         meanOk s2 ∧
         s2.agentUsage p
           = usagePct ((s.windows p).currentUsage + (calculateItemSize i : Int))
               (getContextCapacity p)
     | Except.error _ => True) ∧
    (fEq ((cleanup s p).agentUsage p) (truePct (cleanup s p) p) ∧ meanOk (cleanup s p)) ∧
    ((emergencyCleanup s).totalUsage = fInt 0 ∧
      ∀ q, (emergencyCleanup s).agentUsage q = fInt 0) := by
  refine ⟨?_, ?_, ?_, ?_⟩
  · cases hrf : removeFirstByPath (s.windows p).items path with
    | none => simp [removeContext, hrf]
    | some pr =>
      obtain ⟨removed, items2⟩ := pr
      simp only [removeContext, hrf]
      refine ⟨?_, meanOk_updateTotalUsage _⟩
      unfold truePct
      simp
      exact fEq_refl _
  · by_cases h1 : fLt s.limits.maxPercentage
      (usagePct ((s.windows p).currentUsage + (calculateItemSize i : Int))
        (getContextCapacity p))
    · by_cases h2 : fLt (performAutomaticCleanup s p (calculateItemSize i)).limits.maxPercentage
        (usagePct (((performAutomaticCleanup s p (calculateItemSize i)).windows p).currentUsage
            + (calculateItemSize i : Int)) (getContextCapacity p))
      · simp only [addContext_evict_err s p i h1 h2]
      · simp only [addContext_evict_ok s p i h1 h2]
        exact ⟨finishAdd_meanOk _ p _ _, finishAdd_agentUsage_self _ p _ _⟩
    · simp only [addContext_no_evict s p i h1]
      exact ⟨finishAdd_meanOk _ p _ _, finishAdd_agentUsage_self _ p _ _⟩
  · constructor
    · unfold truePct cleanup
      simp [usagePct, fMul, fInt, fEq]
    · exact meanOk_updateTotalUsage _
  · exact ⟨rfl, fun q => rfl⟩

set_option maxRecDepth 40000 in
/-- The original claim fails on the code: starting from the empty
ledger, twenty-two 101-token file reservations for the technical
writer (capacity 5600, ceiling 40 percent = 2240) bring the window
to 2222; the twenty-third reservation would reach 2323, evicts the
oldest 101-token item and succeeds with a true usage of 2222
tokens (about 39.7 percent), yet the recorded percentage is the
stale pre-eviction 2323 / 5600 (about 41.5 percent). -/
theorem c7_counterexample :
    addContext c7s PersonaType.technicalWriter c7newItem = Except.ok c7s2 ∧
    ¬ fEq (c7s2.agentUsage PersonaType.technicalWriter)
        (truePct c7s2 PersonaType.technicalWriter) := by
  constructor
  · rfl
  · decide

/- ---------------------------------------------------------------
   Lemmas for the eviction pass.
   --------------------------------------------------------------- -/

theorem sortByTypePriority_sorted (items : List ContextItem) :
    (sortByTypePriority items).Pairwise priLE :=
  List.sorted_insertionSort priLE items

theorem sortByTypePriority_perm (items : List ContextItem) :
    (sortByTypePriority items).Perm items :=
  List.perm_insertionSort priLE items

@[simp] theorem sizeSum_nil : sizeSum [] = 0 := rfl

@[simp] theorem sizeSum_cons (x : ContextItem) (l : List ContextItem) :
    sizeSum (x :: l) = x.size + sizeSum l := by
  simp [sizeSum]

theorem selectToRemoveAux_spec (items : List ContextItem) (required : Nat) :
    ∀ freed, ∃ k,
      selectToRemoveAux items freed required = (items.take k).map ContextItem.path ∧
      (∀ j < k, freed + sizeSum (items.take j) < required) ∧
      (k = items.length ∨ required ≤ freed + sizeSum (items.take k)) := by
  induction items with
  | nil =>
    intro freed
    exact ⟨0, rfl, fun j hj => absurd hj (by omega), Or.inl rfl⟩
  | cons it rest ih =>
    intro freed
    by_cases hf : freed ≥ required
    · refine ⟨0, ?_, fun j hj => absurd hj (by omega), Or.inr ?_⟩
      · simp [selectToRemoveAux, hf]
      · simpa using hf
    · obtain ⟨k, hsel, hmin, hstop⟩ := ih (freed + it.size)
      refine ⟨k + 1, ?_, ?_, ?_⟩
      · simp [selectToRemoveAux, hf, hsel, List.take_succ_cons]
      · intro j hj
        cases j with
        | zero =>
          simp only [List.take_zero, sizeSum_nil]
          omega
        | succ j2 =>
          have h2 := hmin j2 (by omega)
          simp only [List.take_succ_cons, sizeSum_cons]
          omega
      · rcases hstop with h | h
        · exact Or.inl (by simp [h])
        · refine Or.inr ?_
          simp only [List.take_succ_cons, sizeSum_cons]
          omega

theorem memB_eq_true_iff (a : String) (l : List String) : memB a l = true ↔ a ∈ l := by
  induction l with
  | nil => simp [memB]
  | cons b rest ih => simp [memB, ih]

theorem removeFirstByPath_none_forall (items : List ContextItem) (path : String)
    (h : removeFirstByPath items path = none) :
    ∀ it ∈ items, ¬(it.path = path) := by
  induction items with
  | nil => intro it hmem; cases hmem
  | cons x tl ih =>
    unfold removeFirstByPath at h
    by_cases hp : x.path = path
    · rw [if_pos hp] at h; exact absurd h (by simp)
    · rw [if_neg hp] at h
      intro it hmem
      rcases List.mem_cons.mp hmem with heq | hmem2
      · rw [heq]; exact hp
      · cases hrec : removeFirstByPath tl path with
        | none => exact ih hrec it hmem2
        | some pr => rw [hrec] at h; exact absurd h (by simp)

theorem removeFirstByPath_some_rest (items : List ContextItem) (path : String) :
    ∀ (removed : ContextItem) (rest : List ContextItem),
      (items.map ContextItem.path).Nodup →
      removeFirstByPath items path = some (removed, rest) →
      rest = items.filter (fun x => !(x.path = path : Bool)) := by
  induction items with
  | nil =>
    intro removed rest _ h
    simp [removeFirstByPath] at h
  | cons x tl ih =>
    intro removed rest hnodup h
    rw [List.map_cons, List.nodup_cons] at hnodup
    obtain ⟨hx_notin, hnd_tl⟩ := hnodup
    unfold removeFirstByPath at h
    by_cases hp : x.path = path
    · rw [if_pos hp] at h
      injection h with h2
      injection h2 with hr hrest
      rw [← hrest]
      have hnotin : ∀ y ∈ tl, ¬(y.path = path) := by
        intro y hy hyp
        exact hx_notin (by
          rw [hp, ← hyp]
          exact List.mem_map_of_mem ContextItem.path hy)
      rw [List.filter_cons, if_neg (by simp [hp])]
      symm
      rw [List.filter_eq_self]
      intro y hy
      simp [hnotin y hy]
    · rw [if_neg hp] at h
      cases hrec : removeFirstByPath tl path with
      | none => rw [hrec] at h; exact absurd h (by simp)
      | some pr =>
        obtain ⟨r2, rest2⟩ := pr
        rw [hrec] at h
        injection h with h2
        injection h2 with hr hrest
        rw [hr] at hrec
        have htl := ih removed rest2 hnd_tl hrec
        rw [← hrest, htl]
        rw [List.filter_cons, if_pos (by simp [hp])]

theorem removeContext_items_filter (s : CMState) (p : PersonaType) (path : String)
    (hnodup : ((s.windows p).items.map ContextItem.path).Nodup) :
    ((removeContext s p path).1.windows p).items
      = (s.windows p).items.filter (fun x => !(x.path = path : Bool)) := by
  cases hrf : removeFirstByPath (s.windows p).items path with
  | none =>
    simp only [removeContext, hrf]
    symm
    rw [List.filter_eq_self]
    intro y hy
    simp [removeFirstByPath_none_forall _ _ hrf y hy]
  | some pr =>
    obtain ⟨removed, items2⟩ := pr
    simp only [removeContext, hrf, updateTotalUsage_windows, setAgentUsage_windows,
      setWindow_windows_self]
    exact removeFirstByPath_some_rest _ _ removed items2 hnodup hrf

theorem nodup_paths_filter (items : List ContextItem) (pred : ContextItem → Bool)
    (h : (items.map ContextItem.path).Nodup) :
    (((items.filter pred).map ContextItem.path)).Nodup :=
  List.Nodup.sublist (List.Sublist.map ContextItem.path (List.filter_sublist items)) h

theorem cleanupFold_items_filter (paths : List String) (s : CMState) (p : PersonaType)
    (hnodup : ((s.windows p).items.map ContextItem.path).Nodup) :
    ((paths.foldl (fun st r => (removeContext st p r).1) s).windows p).items
      = (s.windows p).items.filter (fun x => !(memB x.path paths)) := by
  induction paths generalizing s with
  | nil =>
    simp only [List.foldl_nil]
    symm
    rw [List.filter_eq_self]
    intro y hy
    simp [memB]
  | cons r rest ih =>
    rw [List.foldl_cons]
    have h1 := removeContext_items_filter s p r hnodup
    have h2 : (((removeContext s p r).1.windows p).items.map ContextItem.path).Nodup := by
      rw [h1]
      exact nodup_paths_filter _ _ hnodup
    rw [ih _ h2, h1, List.filter_filter]
    congr 1
    funext x
    by_cases hx : x.path = r
    · simp [memB, hx]
    · simp [memB, hx]

theorem performAutomaticCleanup_items_filter (s : CMState) (p : PersonaType) (required : Nat)
    (hnodup : ((s.windows p).items.map ContextItem.path).Nodup) :
    ((performAutomaticCleanup s p required).windows p).items
      = (s.windows p).items.filter (fun x =>
          !(memB x.path (selectToRemoveAux (sortByTypePriority (s.windows p).items) 0 required))) := by
  unfold performAutomaticCleanup
  exact cleanupFold_items_filter _ s p hnodup

theorem selectToRemoveAux_sublist_paths (l : List ContextItem) (freed required : Nat) :
    (selectToRemoveAux l freed required).Sublist (l.map ContextItem.path) := by
  induction l generalizing freed with
  | nil => exact List.Sublist.refl _
  | cons it rest ih =>
    unfold selectToRemoveAux
    by_cases hf : freed ≥ required
    · rw [if_pos hf]
      exact List.nil_sublist _
    · rw [if_neg hf]
      exact List.Sublist.cons₂ it.path (ih _)

/- ---------------------------------------------------------------
   C6: eviction order and effect.
   --------------------------------------------------------------- -/

/-- C6 (confirmed).  When a reservation exceeds the ceiling and
succeeds, the eviction pass walks the items in ascending
type-priority order (the stable sort puts config before dependency
before file before interface): the evicted paths are an initial
segment of the sorted item list, every proper prefix of which had
freed less than the required space, and the segment either covers
all items or frees at least the required space.  In the resulting
window the evicted items are gone (the remaining old items are
exactly those whose path was not selected) and the new item is
present.  The item paths are assumed pairwise distinct and the new
path fresh, since removal is by path. -/
theorem c6_eviction_order_and_effect (s : CMState) (p : PersonaType) (i : ContextItem)
    (s2 : CMState)
    (hnodup : ((s.windows p).items.map ContextItem.path).Nodup)
    (hfresh : i.path ∉ (s.windows p).items.map ContextItem.path)
    (hexceed : fLt s.limits.maxPercentage
      (usagePct ((s.windows p).currentUsage + (calculateItemSize i : Int))
        (getContextCapacity p)))
    (hok : addContext s p i = Except.ok s2) :
    (sortByTypePriority (s.windows p).items).Pairwise priLE ∧
    (∃ k,
      selectToRemoveAux (sortByTypePriority (s.windows p).items) 0 (calculateItemSize i)
        = ((sortByTypePriority (s.windows p).items).take k).map ContextItem.path ∧
      (∀ j < k,
        sizeSum ((sortByTypePriority (s.windows p).items).take j) < calculateItemSize i) ∧
      (k = (sortByTypePriority (s.windows p).items).length ∨
        calculateItemSize i ≤ sizeSum ((sortByTypePriority (s.windows p).items).take k))) ∧
    (s2.windows p).items
      = (s.windows p).items.filter (fun x =>
          !(memB x.path (selectToRemoveAux (sortByTypePriority (s.windows p).items) 0
            (calculateItemSize i))))
        ++ [{ i with size := calculateItemSize i }] ∧
    (∀ it ∈ (s2.windows p).items,
      memB it.path (selectToRemoveAux (sortByTypePriority (s.windows p).items) 0
        (calculateItemSize i)) = false) ∧
    { i with size := calculateItemSize i } ∈ (s2.windows p).items := by
  have h2 : ¬ fLt (performAutomaticCleanup s p (calculateItemSize i)).limits.maxPercentage
      (usagePct (((performAutomaticCleanup s p (calculateItemSize i)).windows p).currentUsage
          + (calculateItemSize i : Int)) (getContextCapacity p)) := by
    intro h2
    rw [addContext_evict_err s p i hexceed h2] at hok
    exact absurd hok (by simp)
  rw [addContext_evict_ok s p i hexceed h2, Except.ok.injEq] at hok
  have hitems : (s2.windows p).items
      = (s.windows p).items.filter (fun x =>
          !(memB x.path (selectToRemoveAux (sortByTypePriority (s.windows p).items) 0
            (calculateItemSize i))))
        ++ [{ i with size := calculateItemSize i }] := by
    rw [← hok, finishAdd_windows_self]
    simp only []
    rw [performAutomaticCleanup_items_filter s p _ hnodup]
  refine ⟨sortByTypePriority_sorted _, ?_, hitems, ?_, ?_⟩
  · obtain ⟨k, hsel, hmin, hstop⟩ :=
      selectToRemoveAux_spec (sortByTypePriority (s.windows p).items) (calculateItemSize i) 0
    refine ⟨k, hsel, ?_, ?_⟩
    · intro j hj
      have := hmin j hj
      omega
    · rcases hstop with h | h
      · exact Or.inl h
      · exact Or.inr (by omega)
  · intro it hmem
    rw [hitems] at hmem
    rcases List.mem_append.mp hmem with hleft | hright
    · have hpred := (List.mem_filter.mp hleft).2
      simpa using hpred
    · have hit : it = { i with size := calculateItemSize i } := by simpa using hright
      rw [hit]
      by_contra hne
      have htrue : memB i.path (selectToRemoveAux (sortByTypePriority (s.windows p).items) 0
          (calculateItemSize i)) = true := by
        cases hval : memB i.path (selectToRemoveAux (sortByTypePriority (s.windows p).items) 0
            (calculateItemSize i)) with
        | false => exact absurd hval hne
        | true => rfl
      have hmemev := (memB_eq_true_iff _ _).mp htrue
      have hsub := selectToRemoveAux_sublist_paths (sortByTypePriority (s.windows p).items) 0
        (calculateItemSize i)
      have hmem2 : i.path ∈ (sortByTypePriority (s.windows p).items).map ContextItem.path :=
        hsub.subset hmemev
      have hperm :
          ((sortByTypePriority (s.windows p).items).map ContextItem.path).Perm
            ((s.windows p).items.map ContextItem.path) :=
        List.Perm.map ContextItem.path (sortByTypePriority_perm _)
      exact hfresh (hperm.subset hmem2)
  · rw [hitems]
    exact List.mem_append_right _ (by simp)

/-- Instantiation: a window of the technical writer holding one
2200-token config item; a 101-token file reservation exceeds the
2240-token ceiling, the config item is evicted and the new item is
admitted. -/
theorem c6_witness :
    ((c6s.windows PersonaType.technicalWriter).items.map ContextItem.path).Nodup ∧
    c6newItem.path ∉ (c6s.windows PersonaType.technicalWriter).items.map ContextItem.path ∧
    fLt c6s.limits.maxPercentage
      (usagePct ((c6s.windows PersonaType.technicalWriter).currentUsage
        + (calculateItemSize c6newItem : Int)) (getContextCapacity PersonaType.technicalWriter)) ∧
    addContext c6s PersonaType.technicalWriter c6newItem = Except.ok c6s2 ∧
    (∀ it ∈ (c6s2.windows PersonaType.technicalWriter).items,
      memB it.path (selectToRemoveAux
        (sortByTypePriority (c6s.windows PersonaType.technicalWriter).items) 0
        (calculateItemSize c6newItem)) = false) ∧
    { c6newItem with size := calculateItemSize c6newItem }
      ∈ (c6s2.windows PersonaType.technicalWriter).items := by
  have h1 : ((c6s.windows PersonaType.technicalWriter).items.map ContextItem.path).Nodup := by
    decide
  have h2 : c6newItem.path
      ∉ (c6s.windows PersonaType.technicalWriter).items.map ContextItem.path := by
    decide
  have h3 : fLt c6s.limits.maxPercentage
      (usagePct ((c6s.windows PersonaType.technicalWriter).currentUsage
        + (calculateItemSize c6newItem : Int))
        (getContextCapacity PersonaType.technicalWriter)) := by
    decide
  have h4 : addContext c6s PersonaType.technicalWriter c6newItem = Except.ok c6s2 := rfl
  have hmain := c6_eviction_order_and_effect c6s PersonaType.technicalWriter c6newItem c6s2
    h1 h2 h3 h4
  exact ⟨h1, h2, h3, h4, hmain.2.2.2.1, hmain.2.2.2.2⟩

end Sentra
